import Mathlib

/-!
# Verification of the SiteForge pre-render configuration pipeline

Shallow embedding of the core subsystems of the repository:

* `pipeline/download-assets.js` (source file `src/unnamed/part_008`):
  filename derivation (`localFilenameFromUrl`, `simpleHash`), redirect-following
  download (`downloadFile`), the remote-URL walker (`collectRemoteUrls`),
  per-URL deduplication (`deduplicateByUrl`), filename uniquification
  (`uniqueFilename`) and the main `downloadAssets` loop.
* `pipeline/schemas.js` (source file `src/unnamed/part_009`): the Zod schemas
  for the site configuration, `validateSectionProps` and `validateSiteConfig`.
* `src/schemas/sections.ts`: the TypeScript twin of the hero-section schema
  (whose `stats` bounds differ from the pipeline copy).
* `src/lib/i18n.ts`: the `t` LocalizedText resolution function.

JavaScript strings are embedded as Lean `String` (in this toolchain a
structure over `List Char`); JS `String.prototype.startsWith`, `trim`,
`split` are re-implemented over `List Char` so that everything reduces in the
kernel.  JS objects parsed from JSON are association lists with (for
well-formed parses) pairwise-distinct keys; JS `Map`/`Set` iteration order is
the insertion order, which the list embeddings preserve.
-/

namespace SiteForge

/-! ## Character / string primitives (JS semantics, `List Char` based) -/

/-- Whitespace for the purposes of `String.prototype.trim`
    (the characters that actually occur in the repository's data). -/
def isJsWhitespace (c : Char) : Bool :=
  c = ' ' || c = '\t' || c = '\n' || c = '\r'

/-- `String.prototype.trim`, on the character list. -/
def trimChars (cs : List Char) : List Char :=
  ((cs.dropWhile isJsWhitespace).reverse.dropWhile isJsWhitespace).reverse

/-- `String.prototype.trim`. -/
def jsTrim (s : String) : String := ⟨trimChars s.data⟩

/-- `s.startsWith(p)` of JavaScript: `p.data` is a prefix of `s.data`
    (equivalent to Lean's `String.startsWith`, stated over `List Char`
    so that it reduces by `decide`). -/
def jsStartsWith (s p : String) : Bool := p.data.isPrefixOf s.data

/-- `String.prototype.split(sep)` for a single-character separator,
    on character lists.  `splitOnChar '/' "/a" = ["", "a"]` like JS. -/
def splitOnChar (sep : Char) : List Char → List (List Char)
  | [] => [[]]
  | c :: cs =>
    let rest := splitOnChar sep cs
    if c = sep then [] :: rest
    else match rest with
      | [] => [[c]]
      | r :: rs => (c :: r) :: rs

/-- `s.includes(c)` for a single character. -/
def containsChar (s : String) (c : Char) : Bool := s.data.contains c

/-! ## The JSON tree

`JSON.parse` output: null, booleans, numbers, strings, arrays, objects.
Numbers are embedded as `Int`; no claim in scope involves fractional
values.  Objects are association lists in key-insertion order (the order
`Object.keys` iterates); a parse of valid JSON yields pairwise-distinct
keys per object, captured by `Json.wfB` below. -/

mutual
inductive Json where
  | null
  | bool (b : Bool)
  | num (n : Int)
  | str (s : String)
  | arr (xs : JsonList)
  | obj (fs : JsonObj)
  deriving DecidableEq
inductive JsonList where
  | nil
  | cons (v : Json) (tl : JsonList)
  deriving DecidableEq
inductive JsonObj where
  | nil
  | cons (k : String) (v : Json) (tl : JsonObj)
  deriving DecidableEq
end

namespace JsonList

def toList : JsonList → List Json
  | .nil => []
  | .cons v tl => v :: toList tl

def length (xs : JsonList) : Nat := xs.toList.length

/-- `xs[i]`. -/
def get? : JsonList → Nat → Option Json
  | .nil, _ => none
  | .cons v _, 0 => some v
  | .cons _ tl, n + 1 => get? tl n

end JsonList

namespace JsonObj

def keys : JsonObj → List String
  | .nil => []
  | .cons k _ tl => k :: keys tl

def entries : JsonObj → List (String × Json)
  | .nil => []
  | .cons k v tl => (k, v) :: entries tl

/-- Property access `o[k]` (first binding; well-formed objects have
    distinct keys, so this is the only binding). -/
def lookup : JsonObj → String → Option Json
  | .nil, _ => none
  | .cons k v tl, k' => if k = k' then some v else lookup tl k'

def hasKey (o : JsonObj) (k : String) : Bool := (o.lookup k).isSome

end JsonObj

/-- Pairwise-distinct keys, one level. -/
def distinctKeys : JsonObj → Bool
  | .nil => true
  | .cons k _ tl => !(JsonObj.hasKey tl k) && distinctKeys tl

mutual
/-- Well-formed JSON value: every object in the tree has pairwise-distinct
    keys (guaranteed by `JSON.parse`). -/
def Json.wfB : Json → Bool
  | .null | .bool _ | .num _ | .str _ => true
  | .arr xs => xs.wfB
  | .obj fs => distinctKeys fs && fs.wfB
def JsonList.wfB : JsonList → Bool
  | .nil => true
  | .cons v tl => v.wfB && tl.wfB
def JsonObj.wfB : JsonObj → Bool
  | .nil => true
  | .cons _ v tl => v.wfB && tl.wfB
end

/-- A path from the root of a JSON tree to one value slot:
    `Sum.inl i` is an array index, `Sum.inr k` an object key. -/
abbrev JPath := List (Nat ⊕ String)

/-- Read the value at a path. -/
def getAt : Json → JPath → Option Json
  | t, [] => some t
  | .arr xs, .inl i :: p => match xs.get? i with
    | some v => getAt v p
    | none => none
  | .obj fs, .inr k :: p => match fs.lookup k with
    | some v => getAt v p
    | none => none
  | _, _ :: _ => none

/-! ## `isRemoteUrl` and the remote-URL walker (`collectRemoteUrls`)

Source: `download-assets.js` lines 162-211.  The JS walker pushes, for each
string slot that starts with `http://` or `https://`, the URL together with a
closure that can overwrite that slot.  The embedding records the slot's path
instead of the closure (cf. the spec's design note 9: "replace with an
explicit list of (containerRef, key) pairs and a generic
`setAt(container, key, value)` operation"). -/

/-- `isRemoteUrl` (source lines 162-165). -/
def isRemoteUrl (s : String) : Bool :=
  jsStartsWith s "http://" || jsStartsWith s "https://"

mutual
/-- `collectRemoteUrls` (source lines 175-211), returning slot paths instead
    of setter closures.  Order is the source's discovery order: array indices
    ascending, object keys in insertion order.  Like the source, a remote URL
    at the very root is not collected (the root is only walked when it is an
    array or an object). -/
def collectRemoteUrls : Json → List (JPath × String)
  | .arr xs => collectL 0 xs
  | .obj fs => collectO fs
  | _ => []
def collectL (i : Nat) : JsonList → List (JPath × String)
  | .nil => []
  | .cons v tl =>
    (match v with
     | .str s => if isRemoteUrl s then [([.inl i], s)] else []
     | .arr _ => (collectRemoteUrls v).map (fun e => (.inl i :: e.1, e.2))
     | .obj _ => (collectRemoteUrls v).map (fun e => (.inl i :: e.1, e.2))
     | _ => []) ++ collectL (i + 1) tl
def collectO : JsonObj → List (JPath × String)
  | .nil => []
  | .cons k v tl =>
    (match v with
     | .str s => if isRemoteUrl s then [([.inr k], s)] else []
     | .arr _ => (collectRemoteUrls v).map (fun e => (.inr k :: e.1, e.2))
     | .obj _ => (collectRemoteUrls v).map (fun e => (.inr k :: e.1, e.2))
     | _ => []) ++ collectO tl
end

/-- The URLs of the collected entries, with multiplicity, in discovery
    order. -/
def collectUrls (t : Json) : List String := (collectRemoteUrls t).map (·.2)

mutual
/-- Simultaneous rewrite of every collected slot: each remote-URL string slot
    whose resolution `res` yields a local path is overwritten with that path,
    all other values are untouched.  This is the cumulative effect of
    invoking, for every URL `u` with `res u = some v`, all of `u`'s setter
    closures with `v` (all setters of a URL receive the same value, so the
    per-slot result depends only on the slot's old string). -/
def rewriteJson (res : String → Option String) : Json → Json
  | .str s =>
    if isRemoteUrl s then
      match res s with
      | some v => .str v
      | none => .str s
    else .str s
  | .arr xs => .arr (rewriteL res xs)
  | .obj fs => .obj (rewriteO res fs)
  | t => t
def rewriteL (res : String → Option String) : JsonList → JsonList
  | .nil => .nil
  | .cons v tl => .cons (rewriteJson res v) (rewriteL res tl)
def rewriteO (res : String → Option String) : JsonObj → JsonObj
  | .nil => .nil
  | .cons k v tl => .cons k (rewriteJson res v) (rewriteO res tl)
end

/-- Rewrite at the root: the walker never collects (hence the run never
    rewrites) a string at the very root, so a root string is left alone. -/
def rewriteConfig (res : String → Option String) : Json → Json
  | .str s => .str s
  | t => rewriteJson res t

/-! ## Filename derivation (`localFilenameFromUrl`, source lines 33-80)

`new URL(urlString)` is modelled for the subset the downloader feeds it:
strings starting with `http://` or `https://` (everything that passed
`isRemoteUrl`) with a non-empty authority.  Anything else is a parse
failure, which the source maps to the hash fallback. -/

/-- The 32-bit signed wrap `x | 0` of JavaScript. -/
def toInt32 (x : Int) : Int :=
  let m := x % 4294967296
  if m < 2147483648 then m else m - 4294967296

/-- UTF-16 code units of a string (what `charCodeAt` iterates):
    characters above `0xFFFF` split into a surrogate pair. -/
def utf16CodeUnits (s : String) : List Nat :=
  s.data.flatMap fun c =>
    let n := c.toNat
    if n < 65536 then [n]
    else [55296 + (n - 65536) / 1024, 56320 + (n - 65536) % 1024]

/-- One step of the hash loop: `hash = ((hash << 5) - hash) + ch; hash |= 0`.
    `hash << 5` already wraps to a signed 32-bit value in JS. -/
def hashStep (h : Int) (ch : Nat) : Int :=
  toInt32 (toInt32 (h * 32) - h + ch)

/-- Digits of `Number.prototype.toString(36)`. -/
def base36Char (n : Nat) : Char :=
  if n < 10 then Char.ofNat (48 + n) else Char.ofNat (87 + n)

def toBase36Aux (fuel : Nat) (n : Nat) (acc : List Char) : List Char :=
  match fuel with
  | 0 => acc
  | fuel' + 1 =>
    if n < 36 then base36Char n :: acc
    else toBase36Aux fuel' (n / 36) (base36Char (n % 36) :: acc)

/-- `Number.prototype.toString(36)` for naturals; the fuel `n + 1` always
    suffices since each digit divides the value by 36. -/
def toBase36 (n : Nat) : String := ⟨toBase36Aux (n + 1) n []⟩

/-- `simpleHash` (source lines 72-80). -/
def simpleHash (s : String) : String :=
  toBase36 ((utf16CodeUnits s).foldl hashStep 0).natAbs

/-- `new URL(u).pathname` for `http(s)` URLs: the part after the authority up
    to the query/fragment, `"/"` when absent.  `none` models a `TypeError`
    from the `URL` constructor (non-http(s) scheme or empty authority -- the
    callers in scope only pass strings that begin `http://`/`https://`). -/
def parsePathname (u : String) : Option String :=
  let afterScheme : Option (List Char) :=
    if jsStartsWith u "http://" then some (u.data.drop 7)
    else if jsStartsWith u "https://" then some (u.data.drop 8)
    else none
  match afterScheme with
  | none => none
  | some rest =>
    let auth := rest.takeWhile fun c => !(c = '/' || c = '?' || c = '#')
    if auth.isEmpty then none
    else
      let after := rest.drop auth.length
      let path := after.takeWhile fun c => !(c = '?' || c = '#')
      if path.isEmpty then some "/" else some ⟨path⟩

/-- Model of `new URL(u)` succeeding, for the subset above. -/
def validUrl (u : String) : Bool := (parsePathname u).isSome

def hexVal (c : Char) : Option Nat :=
  if '0' ≤ c ∧ c ≤ '9' then some (c.toNat - 48)
  else if 'a' ≤ c ∧ c ≤ 'f' then some (c.toNat - 87)
  else if 'A' ≤ c ∧ c ≤ 'F' then some (c.toNat - 55)
  else none

/-- UTF-8 bytes of one character (bytes as `Nat`). -/
def utf8Encode (c : Char) : List Nat :=
  let n := c.toNat
  if n < 128 then [n]
  else if n < 2048 then [192 + n / 64, 128 + n % 64]
  else if n < 65536 then [224 + n / 4096, 128 + n / 64 % 64, 128 + n % 64]
  else [240 + n / 262144, 128 + n / 4096 % 64, 128 + n / 64 % 64, 128 + n % 64]

def isUtf8Cont (b : Nat) : Bool := 128 ≤ b && b < 192

/-- Strict UTF-8 decoding of a byte list (overlong encodings, surrogates and
    out-of-range sequences rejected, as `decodeURIComponent` does). -/
def utf8Decode : List Nat → Option (List Char)
  | [] => some []
  | b :: rest =>
    if b < 128 then (utf8Decode rest).map (Char.ofNat b :: ·)
    else if 194 ≤ b && b ≤ 223 then
      match rest with
      | b1 :: rest2 =>
        if isUtf8Cont b1 then
          (utf8Decode rest2).map (Char.ofNat ((b - 192) * 64 + (b1 - 128)) :: ·)
        else none
      | [] => none
    else if 224 ≤ b && b ≤ 239 then
      match rest with
      | b1 :: b2 :: rest3 =>
        if isUtf8Cont b1 && isUtf8Cont b2
            && (b ≠ 224 || 160 ≤ b1) && (b ≠ 237 || b1 < 160) then
          (utf8Decode rest3).map
            (Char.ofNat ((b - 224) * 4096 + (b1 - 128) * 64 + (b2 - 128)) :: ·)
        else none
      | _ => none
    else if 240 ≤ b && b ≤ 244 then
      match rest with
      | b1 :: b2 :: b3 :: rest4 =>
        if isUtf8Cont b1 && isUtf8Cont b2 && isUtf8Cont b3
            && (b ≠ 240 || 144 ≤ b1) && (b ≠ 244 || b1 < 144) then
          (utf8Decode rest4).map
            (Char.ofNat ((b - 240) * 262144 + (b1 - 128) * 4096
              + (b2 - 128) * 64 + (b3 - 128)) :: ·)
        else none
      | _ => none
    else none

/-- Percent-decode to bytes; `none` on a `%` not followed by two hex digits
    (`decodeURIComponent` throws there). -/
def percentDecodeBytes : List Char → Option (List Nat)
  | [] => some []
  | '%' :: h :: l :: rest =>
    match hexVal h, hexVal l with
    | some hv, some lv => (percentDecodeBytes rest).map
        fun bs => (hv * 16 + lv) :: bs
    | _, _ => none
  | '%' :: _ => none
  | c :: rest => (percentDecodeBytes rest).map
      fun bs => utf8Encode c ++ bs

/-- `decodeURIComponent`, returning the input unchanged when decoding throws
    (the source wraps the call in `try { } catch { }`, keeping the raw
    segment). -/
def decodeURIComponent (s : String) : String :=
  match percentDecodeBytes s.data with
  | none => s
  | some bytes =>
    match utf8Decode bytes with
    | some cs => ⟨cs⟩
    | none => s

/-- Filename-safe characters: `[a-zA-Z0-9._-]` (source line 54). -/
def isSafeChar (c : Char) : Bool :=
  ('a' ≤ c && c ≤ 'z') || ('A' ≤ c && c ≤ 'Z') || ('0' ≤ c && c ≤ '9') ||
  c = '.' || c = '_' || c = '-'

/-- `localFilenameFromUrl` (source lines 33-65): last path segment,
    percent-decoded, sanitized, leading dots stripped; hash fallback if the
    URL does not parse or the result is empty. -/
def localFilenameFromUrl (u : String) : String :=
  match parsePathname u with
  | none => "asset_" ++ simpleHash u
  | some pathname =>
    let segments := (splitOnChar '/' pathname.data).filter (!·.isEmpty)
    let filename := match segments.getLast? with
      | some seg => String.mk seg
      | none => ""
    let filename := decodeURIComponent filename
    let filename : String := ⟨filename.data.map fun c => if isSafeChar c then c else '_'⟩
    let filename : String := ⟨filename.data.dropWhile (· = '.')⟩
    if filename = "" then "asset_" ++ simpleHash u else filename

/-! ## `uniqueFilename` (source lines 240-256)

The filesystem state of the destination directory is the list of filenames
present; `fs.existsSync(path.join(dir, f))` is membership.  The JS
`while (true)` loop always terminates (candidates are pairwise distinct and
the occupied sets are finite); the embedding carries enough fuel for the
pigeonhole bound, with the (unreachable) fuel-exhausted branch returning the
current candidate. -/

/-- `path.extname` on a bare filename: from the last `.`, empty when there is
    no dot or the only dot is the leading character. -/
def extname (s : String) : String :=
  let idx := (List.range s.data.length).foldl
    (fun acc i => if s.data.get? i = some '.' then some i else acc) none
  match idx with
  | some i => if i = 0 then "" else ⟨s.data.drop i⟩
  | none => ""

/-- `path.basename(s, extname s)`: the filename with its extension cut off. -/
def basenameNoExt (s : String) : String :=
  ⟨s.data.take (s.data.length - (extname s).data.length)⟩

def uniqueFilenameAux (fsFiles reserved : List String) (base ext : String) :
    Nat → Nat → String
  | 0, counter => base ++ "_" ++ Nat.repr counter ++ ext
  | fuel + 1, counter =>
    let cand := base ++ "_" ++ Nat.repr counter ++ ext
    if cand ∈ fsFiles ∨ cand ∈ reserved then
      uniqueFilenameAux fsFiles reserved base ext fuel (counter + 1)
    else cand

/-- `uniqueFilename` (source lines 240-256). -/
def uniqueFilename (fsFiles reserved : List String) (filename : String) : String :=
  if filename ∈ fsFiles ∨ filename ∈ reserved then
    uniqueFilenameAux fsFiles reserved (basenameNoExt filename) (extname filename)
      (fsFiles.length + reserved.length + 1) 2
  else filename

/-- `path.join(dir, f)` for the two-component uses in the downloader
    (`path.join(relativeAssetsDir, filename).replace(/\\/g, '/')`). -/
def joinPath (dir f : String) : String :=
  if dir = "" then f else dir ++ "/" ++ f

/-! ## `downloadFile` (source lines 90-155)

The network is an oracle `net : String → ReqOutcome` giving, per requested
URL, the response observed by the `transport.get` callback (or the
request-level failure event that fires instead).  For a `2xx` response the
destination file is created and the body transfer ends in exactly one of the
three events wired in the source: the write stream's `finish` (resolve), the
write stream's `error` (unlink the partial file, then reject), or the 30 s
request timeout (`req.destroy()` + reject -- the source installs no cleanup
on this path, so a partially-written file stays on disk). -/

inductive BodyOutcome where
  | ok
  | writeStreamError
  | timeoutMidBody
  deriving DecidableEq

inductive ReqOutcome where
  /-- A response arrived: status code, optional `Location` header, and how
      the body transfer ends if the status is `2xx`. -/
  | resp (status : Nat) (location : Option String) (body : BodyOutcome)
  /-- `req.on('error')` fired (no response). -/
  | reqError
  /-- The 30 s timeout fired before any response. -/
  | reqTimeout
  deriving DecidableEq

inductive DlResult where
  | success
  | invalidUrl
  | tooManyRedirects
  | httpError (status : Nat)
  | streamError
  | timedOut
  | requestError
  deriving DecidableEq

/-- `new URL(location, currentUrl).href` for the cases exercised by HTTP
    redirects: an absolute `http(s)` location is taken as-is; a location
    starting with `/` replaces the base's path; any other location replaces
    the base's last path segment.  (Dot-segment normalization and
    query/fragment handling of the full WHATWG algorithm are not modelled;
    no claim depends on them.) -/
def resolveLocation (location base : String) : String :=
  if isRemoteUrl location then location
  else
    let baseChars := base.data.takeWhile fun c => !(c = '?' || c = '#')
    if jsStartsWith location "/" then
      let schemeLen := if jsStartsWith base "https://" then 8 else 7
      let auth := (baseChars.drop schemeLen).takeWhile fun c => !(c = '/')
      ⟨baseChars.take schemeLen ++ auth ++ location.data⟩
    else
      let lastSlash := (List.range baseChars.length).foldl
        (fun acc i => if baseChars.get? i = some '/' then some i else acc) none
      match lastSlash with
      | some i => ⟨baseChars.take (i + 1) ++ location.data⟩
      | none => ⟨baseChars ++ location.data⟩

/-- `doRequest` (source lines 92-151): returns the settled promise outcome
    and whether the destination file exists afterwards. -/
def doRequest (net : String → ReqOutcome) : Nat → String → DlResult × Bool
  | rl, url =>
    if validUrl url = false then (.invalidUrl, false)
    else match net url with
      | .reqError => (.requestError, false)
      | .reqTimeout => (.timedOut, false)
      | .resp status location body =>
        match location with
        | some loc =>
          if 300 ≤ status ∧ status < 400 then
            -- redirect branch (source lines 106-119)
            match rl with
            | 0 => (.tooManyRedirects, false)
            | rl' + 1 => doRequest net rl' (resolveLocation loc url)
          else if status < 200 ∨ 300 ≤ status then (.httpError status, false)
          else
            match body with
            | .ok => (.success, true)
            | .writeStreamError => (.streamError, false)
            | .timeoutMidBody => (.timedOut, true)
        | none =>
          if status < 200 ∨ 300 ≤ status then (.httpError status, false)
          else
            match body with
            | .ok => (.success, true)
            | .writeStreamError => (.streamError, false)
            | .timeoutMidBody => (.timedOut, true)

/-- `MAX_REDIRECTS` (source line 23). -/
def MAX_REDIRECTS : Nat := 5

/-- `downloadFile(url, dest)` with the default redirect budget. -/
def downloadFile (net : String → ReqOutcome) (url : String) : DlResult × Bool :=
  doRequest net MAX_REDIRECTS url

/-! ## `deduplicateByUrl` and the `downloadAssets` loop (source lines 220-370)

`deduplicateByUrl` groups the collected entries by URL into a JS `Map`;
iteration order over the `Map` is first-occurrence order of the URLs, and
each URL's setter list keeps discovery order.  The run threads the
destination-directory contents (`fs`, a filename list: `fs.existsSync` is
membership, a successful or partially-written download appends),
the reserved-name set, the counters, the error list, a log of `downloadFile`
calls (one entry per network fetch of a URL), a log of setter invocations
(slot path × value), and the accumulated URL resolutions used to rewrite the
tree. -/

/-- `deduplicateByUrl` (source lines 220-229): unique URLs in
    first-occurrence order, each with its slot paths in discovery order. -/
def deduplicateByUrl (entries : List (JPath × String)) :
    List (String × List JPath) :=
  let urls := entries.foldl
    (fun acc e => if e.2 ∈ acc then acc else acc ++ [e.2]) []
  urls.map fun u => (u, (entries.filter (·.2 = u)).map (·.1))

structure DState where
  fs : List String
  reserved : List String
  downloaded : Nat
  skipped : Nat
  errors : List String
  fetched : List String
  sets : List (JPath × String)
  res : List (String × String)
  deriving DecidableEq

/-- One iteration of `for (const [url, setters] of urlMap)`
    (source lines 314-351). -/
def processUrl (net : String → ReqOutcome) (assetsDir : String)
    (st : DState) (group : String × List JPath) : DState :=
  let url := group.1
  let setters := group.2
  let rawFilename := localFilenameFromUrl url
  let filename := uniqueFilename st.fs st.reserved rawFilename
  let st := { st with reserved := st.reserved ++ [filename] }
  if rawFilename ∈ st.fs then
    -- SKIP (cached), source lines 326-334
    let existingLocalRef := joinPath assetsDir rawFilename
    { st with
      skipped := st.skipped + 1
      sets := st.sets ++ setters.map (fun p => (p, existingLocalRef))
      res := st.res ++ [(url, existingLocalRef)] }
  else
    let localRef := joinPath assetsDir filename
    let st := { st with fetched := st.fetched ++ [url] }
    match downloadFile net url with
    | (.success, _) =>
      { st with
        fs := st.fs ++ [filename]
        downloaded := st.downloaded + 1
        sets := st.sets ++ setters.map (fun p => (p, localRef))
        res := st.res ++ [(url, localRef)] }
    | (_, fileOnDisk) =>
      { st with
        errors := st.errors ++ ["Failed to download " ++ url]
        fs := if fileOnDisk then st.fs ++ [filename] else st.fs }

structure RunResult where
  /-- The (possibly rewritten) configuration tree. -/
  config : Json
  /-- Destination-directory contents after the run. -/
  fs : List String
  downloaded : Nat
  skipped : Nat
  errors : List String
  /-- One entry per `downloadFile` call. -/
  fetched : List String
  /-- One entry per setter invocation: slot path and the value it was set
      to. -/
  sets : List (JPath × String)
  /-- URL → local reference, for the URLs that resolved this run. -/
  res : List (String × String)
  /-- Whether the configuration file was written back. -/
  wroteConfig : Bool
  deriving DecidableEq

/-- `downloadAssets` (source lines 267-370).  `assetsDir` is the
    `relativeAssetsDir` computed from the config-file and output
    directories; `fs0` lists the files initially present in the output
    directory.  When no remote URL is collected the function returns without
    touching the config file (source lines 297-300); otherwise the rewritten
    tree is written back even when every download failed (source lines
    353-362). -/
def downloadAssets (net : String → ReqOutcome) (assetsDir : String)
    (config : Json) (fs0 : List String) : RunResult :=
  let entries := collectRemoteUrls config
  if entries.isEmpty then
    ⟨config, fs0, 0, 0, [], [], [], [], false⟩
  else
    let urlMap := deduplicateByUrl entries
    let st := urlMap.foldl (processUrl net assetsDir)
      ⟨fs0, [], 0, 0, [], [], [], []⟩
    let lookupRes := fun u => (st.res.find? (·.1 = u)).map (·.2)
    ⟨rewriteConfig lookupRes config, st.fs, st.downloaded, st.skipped,
      st.errors, st.fetched, st.sets, st.res, true⟩

/-! ## LocalizedText resolution (`src/lib/i18n.ts`, function `t`)

The module-level variables `currentLanguage` / `defaultLanguage` /
`availableLanguages` are the fields of an explicit context (the spec's design
note 9 reframes the global state exactly this way).  A `LocalizedText` at
runtime is a plain string or a language-keyed object. -/

inductive LocalizedText where
  | str (s : String)
  | map (entries : List (String × String))
  deriving DecidableEq

structure LocaleContext where
  current : String
  default : String
  available : List String
  deriving DecidableEq

/-- `value[k]` followed by a JS truthiness test: a missing key and the empty
    string are both falsy. -/
def truthyLookup (m : List (String × String)) (k : String) : Option String :=
  match m.find? (·.1 = k) with
  | some kv => if kv.2 = "" then none else some kv.2
  | none => none

/-- `t(value)` (i18n.ts lines 88-105) for a non-null value: plain strings are
    returned as-is; objects follow current → default → first available
    language → first key, each step guarded by JS truthiness. -/
def tResolve (ctx : LocaleContext) : LocalizedText → String
  | .str s => s
  | .map m =>
    match truthyLookup m ctx.current with
    | some v => v
    | none =>
      match truthyLookup m ctx.default with
      | some v => v
      | none =>
        let viaFirst : Option String :=
          match ctx.available.head? with
          | some firstLang =>
            -- `if (firstLang && value[firstLang])`: an empty-string language
            -- code is falsy and skips the lookup
            if firstLang = "" then none else truthyLookup m firstLang
          | none => none
        match viaFirst with
        | some v => v
        | none =>
          match m.head? with
          | some kv => kv.2   -- `value[keys[0]]`: the first binding
          | none => ""

/-- Validity of a LocalizedText per `LocalizedTextSchema`: a non-empty
    trimmed string, or a map with at least one entry, every key non-empty
    and every value non-empty after trimming. -/
def validLocalizedText : LocalizedText → Bool
  | .str s => !(trimChars s.data).isEmpty
  | .map m =>
    !m.isEmpty && m.all fun kv => kv.1 ≠ "" && !(trimChars kv.2.data).isEmpty

/-- The fallback chain exactly as the specification words it: the current
    language's entry if present, else the default language's entry, else the
    first available language's entry, else the map's first key's entry. -/
def tSpecChain (ctx : LocaleContext) : LocalizedText → String
  | .str s => s
  | .map m =>
    match m.find? (·.1 = ctx.current) with
    | some kv => kv.2
    | none =>
      match m.find? (·.1 = ctx.default) with
      | some kv => kv.2
      | none =>
        match ctx.available.head?.bind (fun l => m.find? (·.1 = l)) with
        | some kv => kv.2
        | none =>
          match m.head? with
          | some kv => kv.2
          | none => ""

/-! ## Validation model (`pipeline/schemas.js`, source file part_009)

Zod schemas are embedded as issue-list computations `Json → List ZIssue`
(empty list = parse success); `safeParse` succeeding is the issue list being
empty, which matches Zod because every schema in the file either passes or
produces at least one issue.  Zod's `.trim()` transform is reflected by
running the subsequent checks on the trimmed value and by reading back
trimmed strings (`getSections` below) where the orchestrator consumes parsed
data.  A failed `z.union` is reported as a single issue with Zod's
`invalid_union` message `Invalid input`. -/

inductive PathSeg where
  | key (k : String)
  | idx (i : Nat)
  deriving DecidableEq

structure ZIssue where
  path : List PathSeg
  message : String
  deriving DecidableEq

def typeName : Json → String
  | .null => "null"
  | .bool _ => "boolean"
  | .num _ => "number"
  | .str _ => "string"
  | .arr _ => "array"
  | .obj _ => "object"

def prefixKey (k : String) (i : ZIssue) : ZIssue := ⟨.key k :: i.path, i.message⟩

def prefixIdx (n : Nat) (i : ZIssue) : ZIssue := ⟨.idx n :: i.path, i.message⟩

/-- Required object field: missing → Zod's `Required`. -/
def reqField (fs : JsonObj) (k : String) (s : Json → List ZIssue) : List ZIssue :=
  match fs.lookup k with
  | some v => (s v).map (prefixKey k)
  | none => [⟨[.key k], "Required"⟩]

/-- Optional object field (`.optional()`). -/
def optField (fs : JsonObj) (k : String) (s : Json → List ZIssue) : List ZIssue :=
  match fs.lookup k with
  | some v => (s v).map (prefixKey k)
  | none => []

/-- Wrap a per-field body with Zod's object type check (unknown keys are
    stripped, not errors). -/
def zObj (body : JsonObj → List ZIssue) : Json → List ZIssue := fun j =>
  match j with
  | .obj fs => body fs
  | _ => [⟨[], "Expected object, received " ++ typeName j⟩]

/-- `z.string()` with extra checks on the value. -/
def zStr (checks : String → List String) : Json → List ZIssue := fun j =>
  match j with
  | .str s => (checks s).map (⟨[], ·⟩)
  | _ => [⟨[], "Expected string, received " ++ typeName j⟩]

/-- `z.string()` with no further checks. -/
def zStringAny : Json → List ZIssue := zStr fun _ => []

/-- The check part of `z.string().trim().min(1, msg)`. -/
def trimMin1 (msg : String) : String → List String := fun s =>
  if (trimChars s.data).isEmpty then [msg] else []

/-- `nonEmptyString` (part_009 line 77). -/
def nonEmptyStringS : Json → List ZIssue := zStr (trimMin1 "Must not be empty")

/-- `z.number()` with extra checks. -/
def zNum (checks : Int → List String) : Json → List ZIssue := fun j =>
  match j with
  | .num n => (checks n).map (⟨[], ·⟩)
  | _ => [⟨[], "Expected number, received " ++ typeName j⟩]

def zNumberAny : Json → List ZIssue := zNum fun _ => []

/-- `z.number().min(lo).max(hi)` with Zod's default messages. -/
def zNumRange (lo hi : Int) : Json → List ZIssue := zNum fun n =>
  (if n < lo then
    ["Number must be greater than or equal to " ++ Int.repr lo] else []) ++
  (if hi < n then
    ["Number must be less than or equal to " ++ Int.repr hi] else [])

def zBoolS : Json → List ZIssue := fun j =>
  match j with
  | .bool _ => []
  | _ => [⟨[], "Expected boolean, received " ++ typeName j⟩]

def zAnyS : Json → List ZIssue := fun _ => []

def quoteJoin (vals : List String) : String :=
  String.intercalate " | " (vals.map fun v => "'" ++ v ++ "'")

/-- `z.enum([...])`. -/
def zEnum (vals : List String) : Json → List ZIssue := fun j =>
  match j with
  | .str s =>
    if s ∈ vals then []
    else [⟨[], "Invalid enum value. Expected " ++ quoteJoin vals
      ++ ", received '" ++ s ++ "'"⟩]
  | _ => [⟨[], "Expected " ++ quoteJoin vals ++ ", received " ++ typeName j⟩]

/-- `z.array(elem)` with optional `.min(n, msg)` / `.max(n, msg)` bounds. -/
def zArr (minB maxB : Option (Nat × String)) (elem : Json → List ZIssue) :
    Json → List ZIssue := fun j =>
  match j with
  | .arr xs =>
    let l := xs.toList
    (match minB with
     | some b => if l.length < b.1 then [⟨[], b.2⟩] else []
     | none => []) ++
    (match maxB with
     | some b => if b.1 < l.length then [⟨[], b.2⟩] else []
     | none => []) ++
    l.enum.flatMap fun e => (elem e.2).map (prefixIdx e.1)
  | _ => [⟨[], "Expected array, received " ++ typeName j⟩]

/-- `z.record(keyChecks, valueSchema)`: per-entry key checks and value
    issues, both addressed by the key. -/
def zRecord (keyChecks : String → List String) (valS : Json → List ZIssue) :
    Json → List ZIssue := fun j =>
  match j with
  | .obj fs => fs.entries.flatMap fun kv =>
      (keyChecks kv.1).map (fun m => ⟨[.key kv.1], m⟩) ++
      (valS kv.2).map (prefixKey kv.1)
  | _ => [⟨[], "Expected object, received " ++ typeName j⟩]

/-- `.refine(pred, msg)` at `path`: runs only when the base parse
    succeeded. -/
def zRefine (base : Json → List ZIssue) (pred : Json → Bool)
    (path : List PathSeg) (msg : String) : Json → List ZIssue := fun j =>
  let e := base j
  if e.isEmpty then (if pred j then [] else [⟨path, msg⟩]) else e

/-- `z.union`: success when any branch succeeds, otherwise Zod's
    `invalid_union` issue. -/
def zUnion (opts : List (Json → List ZIssue)) : Json → List ZIssue := fun j =>
  if opts.any (fun s => (s j).isEmpty) then [] else [⟨[], "Invalid input"⟩]

def getField (j : Json) (k : String) : Option Json :=
  match j with
  | .obj fs => fs.lookup k
  | _ => none

/-! ### The base string validators of `pipeline/schemas.js` -/

def isSchemeChar (c : Char) : Bool :=
  c.isAlpha || c.isDigit || c = '+' || c = '-' || c = '.'

/-- Success of the bare `new URL(val)` fallback inside `urlString`'s
    refinement, modelled for the subset in scope: an absolute URL with an
    alphabetic scheme; `http(s)` URLs additionally need an authority. -/
def jsUrlParses (s : String) : Bool :=
  if isRemoteUrl s then validUrl s
  else
    let sch := s.data.takeWhile isSchemeChar
    match s.data.drop sch.length with
    | ':' :: _ =>
      match sch.head? with
      | some c => c.isAlpha
      | none => false
    | _ => false

/-- The `urlString` refinement predicate (part_009 lines 81-99), applied to
    the trimmed value. -/
def urlRefinePred (val : String) : Bool :=
  jsStartsWith val "/" || jsStartsWith val "./" || jsStartsWith val "../" ||
  jsStartsWith val "assets/" || jsStartsWith val "public/" ||
  jsStartsWith val "data:" ||
  (containsChar val '/' && !containsChar val ' ' && !jsStartsWith val "http") ||
  jsUrlParses val

/-- `urlString` (part_009 lines 80-101). -/
def urlStringS : Json → List ZIssue := zStr fun s =>
  if (trimChars s.data).isEmpty then ["URL must not be empty"]
  else if urlRefinePred (jsTrim s) then []
  else ["Must be a valid URL or relative path"]

/-- `LocalizedTextSchema`'s record branch, including its non-empty
    refinement. -/
def localizedRecordS : Json → List ZIssue :=
  zRefine
    (zRecord (fun k => if k.data.isEmpty then ["Language key must not be empty"] else [])
      (zStr (trimMin1 "Localized text must not be empty")))
    (fun j => match j with
      | .obj fs => !fs.entries.isEmpty
      | _ => true)
    [] "Must have at least one language"

/-- `LocalizedTextSchema` (part_009 lines 116-125). -/
def LocalizedTextS : Json → List ZIssue :=
  zUnion [zStr (trimMin1 "Text must not be empty"), localizedRecordS]

/-- Truthiness of `data.k` on parsed data for fields whose schema rules out
    falsy parsed values: plain presence. -/
def hasTruthyField (j : Json) (k : String) : Bool := (getField j k).isSome

/-- `CtaButtonSchema` (part_009 lines 135-145). -/
def CtaButtonSchema : Json → List ZIssue :=
  zRefine
    (zObj fun fs =>
      reqField fs "label" LocalizedTextS ++
      optField fs "anchor" (zStr (trimMin1 "Anchor must not be empty")) ++
      optField fs "href" urlStringS ++
      optField fs "variant" (zEnum ["primary", "outline", "gold", "secondary"]) ++
      optField fs "icon" (zStr (trimMin1 "Icon must not be empty")) ++
      optField fs "iconPosition" (zEnum ["left", "right"]))
    (fun j => hasTruthyField j "anchor" || hasTruthyField j "href")
    [] "Either \"anchor\" or \"href\" must be provided"

/-- `SocialLinkSchema` (part_009 lines 155-159). -/
def SocialLinkSchema : Json → List ZIssue := zObj fun fs =>
  reqField fs "platform" nonEmptyStringS ++
  reqField fs "url" urlStringS ++
  optField fs "label" (zStr (trimMin1 "Label must not be empty"))

/-! ### Section props schemas (pipeline copies, part_009 lines 166-466) -/

def heroStatItemS : Json → List ZIssue := zObj fun fs =>
  reqField fs "value" nonEmptyStringS ++
  reqField fs "label" LocalizedTextS ++
  optField fs "icon" nonEmptyStringS

/-- `HeroPropsSchema` of `pipeline/schemas.js` (lines 166-193).  Its `stats`
    array carries NO length bounds, unlike the TypeScript twin below. -/
def HeroPropsSchema : Json → List ZIssue := zObj fun fs =>
  optField fs "backgroundImage" urlStringS ++
  optField fs "backgroundBlur" (zEnum ["none", "sm", "md", "lg"]) ++
  optField fs "overlayColor" zStringAny ++
  optField fs "overlayOpacity" (zNumRange 0 100) ++
  reqField fs "title" LocalizedTextS ++
  optField fs "subtitle" LocalizedTextS ++
  optField fs "badge" LocalizedTextS ++
  optField fs "quote" (zObj fun q =>
    reqField q "text" LocalizedTextS ++ optField q "author" nonEmptyStringS) ++
  optField fs "cta" (zArr none none CtaButtonSchema) ++
  optField fs "overlayGradient" zBoolS ++
  optField fs "scrollIndicator" zBoolS ++
  optField fs "scrollTarget" nonEmptyStringS ++
  optField fs "profileImage" urlStringS ++
  optField fs "ratingBadge" (zObj fun r =>
    reqField r "score" nonEmptyStringS ++ reqField r "label" LocalizedTextS) ++
  optField fs "layout" (zEnum ["centered", "split"]) ++
  optField fs "stats" (zArr none none heroStatItemS)

def ServiceItemSchema : Json → List ZIssue := zObj fun fs =>
  optField fs "icon" nonEmptyStringS ++
  reqField fs "title" LocalizedTextS ++
  reqField fs "description" LocalizedTextS ++
  optField fs "features" (zArr none none LocalizedTextS)

def ServiceGroupSchema : Json → List ZIssue := zObj fun fs =>
  reqField fs "title" LocalizedTextS ++
  optField fs "image" urlStringS ++
  reqField fs "services" (zArr none none ServiceItemSchema)

def servicesHighlightS : Json → List ZIssue := zObj fun fs =>
  reqField fs "title" LocalizedTextS ++
  optField fs "description" LocalizedTextS ++
  optField fs "image" urlStringS ++
  optField fs "tags" (zArr none none LocalizedTextS) ++
  optField fs "stats" (zArr none none (zObj fun st =>
    reqField st "value" nonEmptyStringS ++ reqField st "label" LocalizedTextS)) ++
  optField fs "cta" (zObj fun c =>
    reqField c "label" LocalizedTextS ++
    optField c "anchor" nonEmptyStringS ++
    optField c "href" urlStringS ++
    optField c "icon" nonEmptyStringS ++
    optField c "iconPosition" (zEnum ["left", "right"]))

def zLiteralNum (n : Int) : Json → List ZIssue := fun j =>
  match j with
  | .num m => if m = n then [] else
      [⟨[], "Invalid literal value, expected " ++ Int.repr n⟩]
  | _ => [⟨[], "Invalid literal value, expected " ++ Int.repr n⟩]

/-- `ServicesPropsSchema` (part_009 lines 217-246) with its
    `services || groups` cross-field refinement. -/
def ServicesPropsSchema : Json → List ZIssue :=
  zRefine
    (zObj fun fs =>
      optField fs "label" LocalizedTextS ++
      reqField fs "title" LocalizedTextS ++
      optField fs "subtitle" LocalizedTextS ++
      optField fs "services" (zArr none none ServiceItemSchema) ++
      optField fs "groups" (zArr none none ServiceGroupSchema) ++
      optField fs "tags" (zArr none none (zObj fun t => reqField t "label" LocalizedTextS)) ++
      optField fs "cardSize" (zEnum ["compact", "normal", "large"]) ++
      optField fs "columns" (zUnion [zLiteralNum 2, zLiteralNum 3, zLiteralNum 4]) ++
      optField fs "highlight" servicesHighlightS)
    (fun j => hasTruthyField j "services" || hasTruthyField j "groups")
    [] "Either \"services\" or \"groups\" must be provided"

def GalleryItemSchema : Json → List ZIssue := zObj fun fs =>
  reqField fs "src" urlStringS ++
  optField fs "alt" LocalizedTextS ++
  optField fs "title" LocalizedTextS ++
  optField fs "location" LocalizedTextS ++
  optField fs "category" LocalizedTextS

def GalleryPropsSchema : Json → List ZIssue := zObj fun fs =>
  optField fs "label" LocalizedTextS ++
  reqField fs "title" LocalizedTextS ++
  optField fs "subtitle" LocalizedTextS ++
  reqField fs "items"
    (zArr (some (1, "Gallery must have at least one item")) none GalleryItemSchema) ++
  optField fs "columns" zNumberAny ++
  optField fs "aspectRatio" (zEnum ["4:3", "1:1", "3:4", "16:9"]) ++
  optField fs "maxInitialItems" zNumberAny ++
  optField fs "loadMoreLabel" LocalizedTextS ++
  optField fs "layout" (zEnum ["grid", "strip"]) ++
  optField fs "thumbnailSize" (zEnum ["sm", "md", "lg"])

def AboutPropsSchema : Json → List ZIssue := zObj fun fs =>
  optField fs "label" LocalizedTextS ++
  reqField fs "title" LocalizedTextS ++
  reqField fs "content"
    (zArr (some (1, "About section must have at least one content paragraph")) none
      LocalizedTextS) ++
  optField fs "image" urlStringS ++
  optField fs "imagePosition" (zEnum ["left", "right"]) ++
  optField fs "floatingCard" (zObj fun c =>
    optField c "icon" nonEmptyStringS ++
    reqField c "label" LocalizedTextS ++
    reqField c "text" LocalizedTextS) ++
  optField fs "stats" (zArr none none (zObj fun st =>
    optField st "icon" nonEmptyStringS ++
    reqField st "label" LocalizedTextS ++
    reqField st "value" nonEmptyStringS)) ++
  optField fs "quote" (zObj fun q =>
    reqField q "text" LocalizedTextS ++ optField q "author" nonEmptyStringS) ++
  optField fs "highlights" (zArr none none (zObj fun h =>
    reqField h "text" LocalizedTextS)) ++
  optField fs "values" (zArr none none (zObj fun v =>
    optField v "icon" nonEmptyStringS ++
    reqField v "title" LocalizedTextS ++
    reqField v "description" LocalizedTextS))

/-- Simplified model of Zod's email regex: a single `@`, non-empty local
    part, domain containing a dot.  No claim in scope exercises its edge
    cases. -/
def emailOk (s : String) : Bool :=
  match splitOnChar '@' s.data with
  | [locPart, domain] =>
    !locPart.isEmpty && !domain.isEmpty && domain.contains '.'
  | _ => false

def emailChecks (s : String) : List String :=
  if (trimChars s.data).isEmpty then ["Email must not be empty"]
  else if emailOk (jsTrim s) then []
  else ["Must be a valid email address"]

def ContactPropsSchema : Json → List ZIssue := zObj fun fs =>
  optField fs "label" LocalizedTextS ++
  reqField fs "title" LocalizedTextS ++
  optField fs "subtitle" LocalizedTextS ++
  optField fs "phone" (zUnion [nonEmptyStringS,
    zArr none none (zObj fun p =>
      optField p "label" LocalizedTextS ++ reqField p "number" nonEmptyStringS)]) ++
  optField fs "email" (zStr emailChecks) ++
  optField fs "address" (zObj fun a =>
    reqField a "street" nonEmptyStringS ++
    reqField a "city" nonEmptyStringS ++
    reqField a "postalCode" nonEmptyStringS ++
    optField a "country" nonEmptyStringS ++
    optField a "mapsUrl" urlStringS) ++
  optField fs "coordinates" (zObj fun c =>
    reqField c "lat" zNumberAny ++ reqField c "lng" zNumberAny) ++
  optField fs "hours" (zObj fun h =>
    reqField h "label" LocalizedTextS ++
    reqField h "schedule" (zArr none none (zObj fun e =>
      reqField e "days" LocalizedTextS ++ reqField e "hours" LocalizedTextS))) ++
  optField fs "ctaCard" (zObj fun c =>
    reqField c "title" LocalizedTextS ++
    optField c "subtitle" LocalizedTextS ++
    optField c "buttons" (zArr none none CtaButtonSchema)) ++
  optField fs "socialLinks" (zArr none none SocialLinkSchema) ++
  optField fs "mapEmbed" urlStringS ++
  optField fs "languages" (zArr none none nonEmptyStringS) ++
  optField fs "paymentMethods" (zArr none none nonEmptyStringS) ++
  optField fs "note" LocalizedTextS ++
  optField fs "instagramEmbed" (zObj fun i =>
    reqField i "username" nonEmptyStringS ++
    optField i "displayText" LocalizedTextS)

def HoursPropsSchema : Json → List ZIssue := zObj fun fs =>
  optField fs "label" LocalizedTextS ++
  reqField fs "title" LocalizedTextS ++
  optField fs "subtitle" LocalizedTextS ++
  reqField fs "schedule"
    (zArr (some (1, "Schedule must have at least one day entry")) none (zObj fun e =>
      reqField e "day" LocalizedTextS ++
      optField e "morning" nonEmptyStringS ++
      optField e "afternoon" nonEmptyStringS ++
      optField e "continuous" nonEmptyStringS ++
      optField e "closed" zBoolS)) ++
  optField fs "ctaButton" (zObj fun c =>
    reqField c "label" LocalizedTextS ++
    optField c "phone" nonEmptyStringS ++
    optField c "href" urlStringS ++
    optField c "icon" nonEmptyStringS ++
    optField c "iconPosition" (zEnum ["left", "right"])) ++
  optField fs "paymentMethods" (zArr none none nonEmptyStringS) ++
  optField fs "showTodayBadge" zBoolS ++
  optField fs "showOpenClosedBadge" zBoolS ++
  optField fs "timezone" nonEmptyStringS ++
  optField fs "note" LocalizedTextS ++
  optField fs "uiStrings" (zObj fun u =>
    optField u "today" LocalizedTextS ++
    optField u "closed" LocalizedTextS ++
    optField u "paymentMethods" LocalizedTextS ++
    optField u "open" LocalizedTextS)

def FeaturedPropsSchema : Json → List ZIssue := zObj fun fs =>
  optField fs "label" LocalizedTextS ++
  reqField fs "title" LocalizedTextS ++
  optField fs "description" LocalizedTextS ++
  reqField fs "item" (zObj fun i =>
    reqField i "image" urlStringS ++
    optField i "badge" LocalizedTextS ++
    optField i "region" LocalizedTextS ++
    reqField i "name" LocalizedTextS ++
    optField i "producer" LocalizedTextS ++
    optField i "details" (zArr none none (zObj fun d =>
      reqField d "label" LocalizedTextS ++ reqField d "text" LocalizedTextS)) ++
    optField i "volume" nonEmptyStringS) ++
  optField fs "categories" (zArr none none (zObj fun c =>
    reqField c "name" LocalizedTextS ++ reqField c "count" LocalizedTextS))

def TestimonialsPropsSchema : Json → List ZIssue := zObj fun fs =>
  optField fs "label" LocalizedTextS ++
  reqField fs "title" LocalizedTextS ++
  optField fs "subtitle" LocalizedTextS ++
  reqField fs "testimonials"
    (zArr (some (1, "Testimonials section must have at least one testimonial")) none
      (zObj fun t =>
        reqField t "quote" LocalizedTextS ++
        reqField t "author" LocalizedTextS ++
        optField t "role" LocalizedTextS ++
        optField t "rating" (zNumRange 1 5) ++
        optField t "image" urlStringS))

def CtaBannerPropsSchema : Json → List ZIssue := zObj fun fs =>
  reqField fs "title" LocalizedTextS ++
  optField fs "subtitle" LocalizedTextS ++
  optField fs "backgroundImage" urlStringS ++
  optField fs "backgroundColor" zStringAny ++
  reqField fs "cta" CtaButtonSchema

def TextBlockPropsSchema : Json → List ZIssue := zObj fun fs =>
  optField fs "title" LocalizedTextS ++
  reqField fs "content" LocalizedTextS

def MapPropsSchema : Json → List ZIssue := zObj fun fs =>
  optField fs "embedUrl" urlStringS ++
  optField fs "address" LocalizedTextS ++
  optField fs "mapsUrl" urlStringS ++
  optField fs "staticImage" urlStringS ++
  optField fs "title" LocalizedTextS ++
  optField fs "coordinates" (zObj fun c =>
    reqField c "lat" zNumberAny ++ reqField c "lng" zNumberAny) ++
  optField fs "zoom" zNumberAny

/-- The section registry `sectionPropsSchemas` (part_009 lines 470-482):
    type tag → props schema, `none` for an unknown tag. -/
def sectionPropsSchemas (t : String) : Option (Json → List ZIssue) :=
  if t = "hero" then some HeroPropsSchema
  else if t = "services" then some ServicesPropsSchema
  else if t = "gallery" then some GalleryPropsSchema
  else if t = "about" then some AboutPropsSchema
  else if t = "contact" then some ContactPropsSchema
  else if t = "hours" then some HoursPropsSchema
  else if t = "featured" then some FeaturedPropsSchema
  else if t = "testimonials" then some TestimonialsPropsSchema
  else if t = "cta-banner" then some CtaBannerPropsSchema
  else if t = "text-block" then some TextBlockPropsSchema
  else if t = "map" then some MapPropsSchema
  else none

/-! ### The TypeScript twin (`src/schemas/sections.ts`)

Shared sub-schemas (`nonEmptyString`, `urlString`, `LocalizedTextSchema`,
`CtaButtonSchema`, the stat item) are textually identical in both files and
reuse the embeddings above.  The differences: `overlayColor` is the theme
color enum, and `stats` carries the 2..4 length bounds. -/

/-- `ThemeColorSchema` of sections.ts (lines 49-56). -/
def ThemeColorSchema : Json → List ZIssue :=
  zEnum ["primary", "secondary", "accent", "foreground", "background", "muted"]

/-- `HeroPropsSchema` of `src/schemas/sections.ts` (lines 121-148): its
    `stats` array is bounded by
    `.min(2, 'Stats must have at least 2 items').max(4, 'Stats cannot exceed 4 items')`. -/
def HeroPropsSchemaTS : Json → List ZIssue := zObj fun fs =>
  optField fs "backgroundImage" urlStringS ++
  optField fs "backgroundBlur" (zEnum ["none", "sm", "md", "lg"]) ++
  optField fs "overlayColor" ThemeColorSchema ++
  optField fs "overlayOpacity" (zNumRange 0 100) ++
  reqField fs "title" LocalizedTextS ++
  optField fs "subtitle" LocalizedTextS ++
  optField fs "badge" LocalizedTextS ++
  optField fs "quote" (zObj fun q =>
    reqField q "text" LocalizedTextS ++ optField q "author" nonEmptyStringS) ++
  optField fs "cta" (zArr none none CtaButtonSchema) ++
  optField fs "overlayGradient" zBoolS ++
  optField fs "scrollIndicator" zBoolS ++
  optField fs "scrollTarget" nonEmptyStringS ++
  optField fs "profileImage" urlStringS ++
  optField fs "ratingBadge" (zObj fun r =>
    reqField r "score" nonEmptyStringS ++ reqField r "label" LocalizedTextS) ++
  optField fs "layout" (zEnum ["centered", "split"]) ++
  optField fs "stats"
    (zArr (some (2, "Stats must have at least 2 items"))
      (some (4, "Stats cannot exceed 4 items")) heroStatItemS)

/-! ### Top-level configuration schema (part_009 lines 486-642) -/

def FontConfigSchema : Json → List ZIssue := zObj fun fs =>
  reqField fs "family" nonEmptyStringS ++
  reqField fs "weights"
    (zArr (some (1, "At least one font weight is required")) none (zNumRange 100 900)) ++
  optField fs "fallback" nonEmptyStringS

def ThemeColorsSchema : Json → List ZIssue := zObj fun fs =>
  reqField fs "primary" zStringAny ++
  optField fs "primary-foreground" zStringAny ++
  optField fs "secondary" zStringAny ++
  optField fs "secondary-foreground" zStringAny ++
  optField fs "accent" zStringAny ++
  optField fs "accent-foreground" zStringAny ++
  reqField fs "background" zStringAny ++
  reqField fs "foreground" zStringAny ++
  optField fs "card" zStringAny ++
  optField fs "card-foreground" zStringAny ++
  optField fs "popover" zStringAny ++
  optField fs "popover-foreground" zStringAny ++
  optField fs "muted" zStringAny ++
  optField fs "muted-foreground" zStringAny ++
  optField fs "border" zStringAny ++
  optField fs "input" zStringAny ++
  optField fs "ring" zStringAny ++
  optField fs "destructive" zStringAny ++
  optField fs "destructive-foreground" zStringAny ++
  optField fs "custom" (zRecord (fun _ => []) zStringAny)

def ThemeConfigSchema : Json → List ZIssue := zObj fun fs =>
  reqField fs "colors" ThemeColorsSchema ++
  reqField fs "fonts" (zObj fun f =>
    reqField f "heading" FontConfigSchema ++ reqField f "body" FontConfigSchema) ++
  optField fs "borderRadius" zStringAny ++
  optField fs "shadows" (zRecord (fun _ => []) zStringAny) ++
  optField fs "gradients" (zRecord (fun _ => []) zStringAny) ++
  optField fs "buttonStyle" (zObj fun b =>
    optField b "borderRadius" (zEnum ["none", "sm", "md", "lg", "full"]))

def SeoConfigSchema : Json → List ZIssue := zObj fun fs =>
  reqField fs "title" LocalizedTextS ++
  reqField fs "description" LocalizedTextS ++
  optField fs "keywords" (zArr none none nonEmptyStringS) ++
  optField fs "ogImage" urlStringS ++
  optField fs "canonical" urlStringS ++
  optField fs "locale" nonEmptyStringS ++
  optField fs "structuredData" (zRecord (fun _ => []) zAnyS) ++
  optField fs "favicon" urlStringS ++
  optField fs "appleTouchIcon" urlStringS

def NavLinkSchema : Json → List ZIssue := zObj fun fs =>
  reqField fs "label" LocalizedTextS ++ reqField fs "anchor" nonEmptyStringS

def NavigationConfigSchema : Json → List ZIssue := zObj fun fs =>
  reqField fs "links" (zArr none none NavLinkSchema) ++
  optField fs "showLanguageSwitcher" zBoolS ++
  optField fs "logo" urlStringS ++
  optField fs "logoDark" urlStringS ++
  optField fs "logoText" LocalizedTextS ++
  optField fs "logoSubtext" LocalizedTextS ++
  optField fs "logoSubtextColor" zStringAny ++
  optField fs "headerStyle" (zObj fun h =>
    optField h "textColorAtTop" (zEnum ["light", "dark", "auto"]) ++
    optField h "alwaysShowBackground" zBoolS) ++
  optField fs "ctaButton" (zObj fun c =>
    reqField c "label" LocalizedTextS ++
    optField c "anchor" nonEmptyStringS ++
    optField c "href" urlStringS ++
    optField c "phone" nonEmptyStringS)

def FooterColumnSchema : Json → List ZIssue := zObj fun fs =>
  reqField fs "title" LocalizedTextS ++
  reqField fs "items" (zArr none none (zObj fun i =>
    reqField i "text" LocalizedTextS ++ optField i "href" urlStringS))

def FooterConfigSchema : Json → List ZIssue := zObj fun fs =>
  reqField fs "copyright" LocalizedTextS ++
  optField fs "description" LocalizedTextS ++
  optField fs "links" (zArr none none NavLinkSchema) ++
  optField fs "socialLinks" (zArr none none SocialLinkSchema) ++
  optField fs "columns" (zArr none none FooterColumnSchema) ++
  optField fs "bottomText" LocalizedTextS ++
  optField fs "logo" urlStringS ++
  optField fs "layout" (zEnum ["full", "compact", "minimal"]) ++
  optField fs "showNavigation" zBoolS

def DisclaimerConfigSchema : Json → List ZIssue := zObj fun fs =>
  optField fs "enabled" zBoolS ++
  optField fs "title" LocalizedTextS ++
  optField fs "message" LocalizedTextS ++
  optField fs "bulletPoints" (zArr none none LocalizedTextS) ++
  optField fs "buttonLabel" LocalizedTextS ++
  optField fs "icon" nonEmptyStringS

/-- `VALID_SECTION_TYPES` (part_009 lines 595-607): the closed set of eleven
    section type tags. -/
def VALID_SECTION_TYPES : List String :=
  ["hero", "services", "gallery", "about", "contact", "hours", "featured",
   "testimonials", "cta-banner", "text-block", "map"]

/-- `SectionConfigSchema` (part_009 lines 609-613). -/
def SectionConfigSchema : Json → List ZIssue := zObj fun fs =>
  reqField fs "type" (zEnum VALID_SECTION_TYPES) ++
  reqField fs "id" nonEmptyStringS ++
  reqField fs "props" (zRecord (fun _ => []) zAnyS)

def PipelineConfigSchema : Json → List ZIssue := zObj fun fs =>
  optField fs "steps" (zArr none none zStringAny)

/-- The `defaultLanguage ∈ languages` refinement of `SiteConfigSchema`
    (part_009 lines 631-642), on parsed (trimmed) values. -/
def defaultLangPred (j : Json) : Bool :=
  match getField j "languages" with
  | some (.arr xs) =>
    let langs := xs.toList.filterMap fun v =>
      match v with
      | .str s => some (jsTrim s)
      | _ => none
    if langs.isEmpty then true
    else
      match getField j "defaultLanguage" with
      | some (.str s) => jsTrim s ∈ langs
      | _ => true
  | _ => true

/-- `SiteConfigSchema` (part_009 lines 619-642). -/
def SiteConfigSchema : Json → List ZIssue :=
  zRefine
    (zObj fun fs =>
      reqField fs "name" nonEmptyStringS ++
      optField fs "url" urlStringS ++
      optField fs "languages" (zArr none none nonEmptyStringS) ++
      reqField fs "defaultLanguage" nonEmptyStringS ++
      reqField fs "theme" ThemeConfigSchema ++
      optField fs "seo" SeoConfigSchema ++
      reqField fs "navigation" NavigationConfigSchema ++
      reqField fs "sections"
        (zArr (some (1, "At least one section is required")) none SectionConfigSchema) ++
      reqField fs "footer" FooterConfigSchema ++
      optField fs "disclaimer" DisclaimerConfigSchema ++
      optField fs "pipeline" PipelineConfigSchema)
    defaultLangPred [.key "defaultLanguage"]
    "defaultLanguage must be included in the languages array"

/-! ### `validateSectionProps` and `validateSiteConfig` (part_009 lines 649-805) -/

/-- An orchestrator-level issue: rendered path string plus message, as the
    two validation functions return them. -/
structure Issue where
  path : String
  message : String
  deriving DecidableEq

def segString : PathSeg → String
  | .key k => k
  | .idx i => Nat.repr i

/-- `issue.path.join('.')`. -/
def renderZPath (p : List PathSeg) : String :=
  String.intercalate "." (p.map segString)

/-- `issue.path.join('.') || '(root)'`. -/
def renderTopPath (p : List PathSeg) : String :=
  if p.isEmpty then "(root)" else renderZPath p

/-- `validateSectionProps` (part_009 lines 649-674): an unknown tag yields
    the hard `Unknown section type` error; a known tag dispatches to its
    schema and prefixes each issue path with `sections[i].props`. -/
def validateSectionProps (sectionType : String) (props : Json)
    (sectionIndex : Nat) : List Issue :=
  match sectionPropsSchemas sectionType with
  | none =>
    [⟨"sections[" ++ Nat.repr sectionIndex ++ "].type",
      "Unknown section type: \"" ++ sectionType ++ "\""⟩]
  | some schema =>
    (schema props).map fun i =>
      let propPath := renderZPath i.path
      ⟨"sections[" ++ Nat.repr sectionIndex ++ "].props"
        ++ (if propPath = "" then "" else "." ++ propPath), i.message⟩

/-- One parsed section as the orchestrator reads it off
    `topLevelResult.data` (the `id` is trimmed by its schema's `.trim()`
    transform). -/
structure SectionBlock where
  type : String
  id : String
  props : Json
  deriving DecidableEq

def getSections (config : Json) : List SectionBlock :=
  match getField config "sections" with
  | some (.arr xs) => xs.toList.map fun sj =>
      ⟨(match getField sj "type" with
        | some (.str t) => t
        | _ => ""),
       (match getField sj "id" with
        | some (.str i) => jsTrim i
        | _ => ""),
       (match getField sj "props" with
        | some p => p
        | _ => .null)⟩
  | _ => []

/-- The missing-`seo` warning (part_009 lines 706-711). -/
def seoWarnings (config : Json) : List Issue :=
  match getField config "seo" with
  | some _ => []
  | none => [⟨"seo", "No \"seo\" field found — SEO metadata will not be generated"⟩]

/-- The duplicate-id scan (part_009 lines 713-724): one warning per
    occurrence whose id was already seen. -/
def dupIdWarnings (seen : List String) (i : Nat) : List String → List Issue
  | [] => []
  | id :: rest =>
    (if id ∈ seen then
      [⟨"sections[" ++ Nat.repr i ++ "].id", "Duplicate section id \"" ++ id ++ "\""⟩]
     else []) ++ dupIdWarnings (id :: seen) (i + 1) rest

/-! ### The locale-character heuristic (part_009 lines 17-72 and 726-798) -/

structure SuspPattern where
  text : String
  wordStart : Bool
  wordEnd : Bool

/-- `LANGUAGE_PATTERNS.de.suspiciousPatterns`: a leading `\b` on all, a
    trailing `\b` only on `\bUber\b` and `\bfur\b`. -/
def germanPatterns : List SuspPattern :=
  [⟨"Uber", true, true⟩, ⟨"fur", true, true⟩, ⟨"Gruss", true, false⟩,
   ⟨"Munchen", true, false⟩, ⟨"Koln", true, false⟩,
   ⟨"Dusseldorf", true, false⟩, ⟨"offnung", true, false⟩]

/-- `LANGUAGE_PATTERNS.fr.suspiciousPatterns`. -/
def frenchPatterns : List SuspPattern :=
  [⟨"elegant", true, false⟩, ⟨"etablissement", true, false⟩,
   ⟨"cafe", true, true⟩, ⟨"apero", true, false⟩, ⟨"hotellerie", true, false⟩]

/-- Regex `\w` as the JS engine uses it for `\b` boundaries. -/
def isWordChar (c : Char) : Bool :=
  ('a' ≤ c && c ≤ 'z') || ('A' ≤ c && c ≤ 'Z') || ('0' ≤ c && c ≤ '9') || c = '_'

def toLowerCh (c : Char) : Char :=
  if 'A' ≤ c && c ≤ 'Z' then Char.ofNat (c.toNat + 32) else c

def matchesPrefixCI : List Char → List Char → Bool
  | [], _ => true
  | _ :: _, [] => false
  | p :: ps, c :: cs => toLowerCh p = toLowerCh c && matchesPrefixCI ps cs

/-- Case-insensitive match of `pattern.text` somewhere in `cs`, honouring the
    requested word boundaries. -/
def suspMatches (p : SuspPattern) (cs : List Char) : Bool :=
  (List.range (cs.length + 1)).any fun i =>
    matchesPrefixCI p.text.data (cs.drop i) &&
    (!p.wordStart ||
      (match i with
       | 0 => true
       | i' + 1 =>
         match cs.get? i' with
         | some c => !isWordChar c
         | none => true)) &&
    (!p.wordEnd ||
      (match (cs.drop (i + p.text.data.length)).head? with
       | some c => !isWordChar c
       | none => true))

def germanReason : String :=
  "German text may be missing proper characters (diacritics/umlauts)"

def frenchReason : String :=
  "French text may be missing proper characters (diacritics/umlauts)"

/-- `checkLanguageCharacters` (part_009 lines 54-72): `none` stands for
    `{ suspicious: false }`.  Text length is in UTF-16 code units like JS
    `text.length`. -/
def checkLanguageCharacters (text : String) (langCode : String) : Option String :=
  if langCode = "de" then
    if (utf16CodeUnits text).length < 10 then none
    else if germanPatterns.any (fun p => suspMatches p text.data) then some germanReason
    else none
  else if langCode = "fr" then
    if (utf16CodeUnits text).length < 10 then none
    else if frenchPatterns.any (fun p => suspMatches p text.data) then some frenchReason
    else none
  else none

/-- The `checkedTexts` set plus accumulated warnings threaded through the
    `checkLocalizedText` walk. -/
structure WalkState where
  checked : List String
  warnings : List Issue

/-- The per-language inner loop of the localized-text branch (part_009 lines
    754-770). -/
def langCheckEntries (currentPath : String) (st : WalkState) :
    List (String × Json) → WalkState
  | [] => st
  | (lang, .str text) :: rest =>
    if lang = "de" || lang = "fr" then
      let textKey := lang ++ ":" ++ text
      if st.checked.contains textKey then langCheckEntries currentPath st rest
      else
        let st' : WalkState := ⟨st.checked ++ [textKey], st.warnings⟩
        match checkLanguageCharacters text lang with
        | some r =>
          langCheckEntries currentPath
            ⟨st'.checked, st'.warnings ++ [⟨currentPath ++ "." ++ lang, r⟩]⟩ rest
        | none => langCheckEntries currentPath st' rest
    else langCheckEntries currentPath st rest
  | _ :: rest => langCheckEntries currentPath st rest

mutual
/-- The object iteration of `checkLocalizedText` (part_009 lines 730-786). -/
def walkObj (defLang : String) (langsToCheck : List String)
    (st : WalkState) (path : String) : JsonObj → WalkState
  | .nil => st
  | .cons k v tl =>
    walkObj defLang langsToCheck
      (walkEntry defLang langsToCheck st path k v) path tl
/-- The same iteration when `checkLocalizedText` receives an array:
    `Object.entries` of an array iterates index strings. -/
def walkArr (defLang : String) (langsToCheck : List String)
    (st : WalkState) (path : String) (i : Nat) : JsonList → WalkState
  | .nil => st
  | .cons v tl =>
    walkArr defLang langsToCheck
      (walkEntry defLang langsToCheck st path (Nat.repr i) v) path (i + 1) tl
/-- One `[key, value]` iteration of the walk. -/
def walkEntry (defLang : String) (langsToCheck : List String)
    (st : WalkState) (path : String) (k : String) : Json → WalkState := fun v =>
  let currentPath := if path = "" then k else path ++ "." ++ k
  let st1 :=
    match v with
    | .str s =>
      -- plain string: checked against the default language
      if (defLang = "de" || defLang = "fr") && !(st.checked.contains s) then
        let st' : WalkState := ⟨st.checked ++ [s], st.warnings⟩
        match checkLanguageCharacters s defLang with
        | some r => ⟨st'.checked, st'.warnings ++ [⟨currentPath, r⟩]⟩
        | none => st'
      else st
    | .obj fsv =>
      if (JsonObj.keys fsv).any (· ∈ langsToCheck) then
        langCheckEntries currentPath st (JsonObj.entries fsv)
      else walkObj defLang langsToCheck st currentPath fsv
    | .arr xsv =>
      -- `typeof value === 'object'` is true for arrays; `Object.keys` gives
      -- the index strings, and the `!Array.isArray` guard blocks recursion
      if ((xsv.toList.enum).map fun e => Nat.repr e.1).any (· ∈ langsToCheck) then
        langCheckEntries currentPath st
          ((xsv.toList.enum).map fun e => (Nat.repr e.1, e.2))
      else st
    | _ => st
  match v with
  | .arr xsv => walkItems defLang langsToCheck st1 currentPath 0 xsv
  | _ => st1
/-- The dedicated array loop (part_009 lines 777-785): object-typed items
    are walked with a `path[i]` prefix. -/
def walkItems (defLang : String) (langsToCheck : List String)
    (st : WalkState) (currentPath : String) (i : Nat) : JsonList → WalkState
  | .nil => st
  | .cons item tl =>
    let st' :=
      match item with
      | .obj fsv =>
        walkObj defLang langsToCheck st
          (currentPath ++ "[" ++ Nat.repr i ++ "]") fsv
      | .arr xsv =>
        walkArr defLang langsToCheck st
          (currentPath ++ "[" ++ Nat.repr i ++ "]") 0 xsv
      | _ => st
    walkItems defLang langsToCheck st' currentPath (i + 1) tl
end

/-- Entry point of `checkLocalizedText(obj, path)`: anything that is not an
    object (or array) returns immediately. -/
def walkJson (defLang : String) (langsToCheck : List String)
    (st : WalkState) (path : String) : Json → WalkState
  | .obj fs => walkObj defLang langsToCheck st path fs
  | .arr xs => walkArr defLang langsToCheck st path 0 xs
  | _ => st

def jOrNull : Option Json → Json
  | some j => j
  | none => .null

/-- `languagesToCheck` (part_009 line 727): the parsed `languages` array when
    the field is present (an empty array is truthy in JS), else the default
    language alone. -/
def languagesToCheck (config : Json) : List String :=
  match getField config "languages" with
  | some (.arr xs) => xs.toList.filterMap fun v =>
      match v with
      | .str s => some (jsTrim s)
      | _ => none
  | _ =>
    match getField config "defaultLanguage" with
    | some (.str s) => [jsTrim s]
    | _ => []

def defaultLanguageOf (config : Json) : String :=
  match getField config "defaultLanguage" with
  | some (.str s) => jsTrim s
  | _ => ""

/-- Step 4 of `validateSiteConfig` (part_009 lines 788-798): the walk over
    every section's props, then navigation, footer, seo and disclaimer,
    sharing one `checkedTexts` set. -/
def langWarnings (config : Json) (sections : List SectionBlock) : List Issue :=
  let defLang := defaultLanguageOf config
  let langs := languagesToCheck config
  let st1 := sections.enum.foldl
    (fun st e => walkJson defLang langs st
      ("sections[" ++ Nat.repr e.1 ++ "].props") e.2.props)
    ⟨[], []⟩
  let st2 := walkJson defLang langs st1 "navigation" (jOrNull (getField config "navigation"))
  let st3 := walkJson defLang langs st2 "footer" (jOrNull (getField config "footer"))
  let st4 := walkJson defLang langs st3 "seo" (jOrNull (getField config "seo"))
  let st5 := walkJson defLang langs st4 "disclaimer" (jOrNull (getField config "disclaimer"))
  st5.warnings

structure VResult where
  valid : Bool
  errors : List Issue
  warnings : List Issue
  deriving DecidableEq

/-- Convenience constructor for object literals. -/
def mkObj : List (String × Json) → JsonObj
  | [] => .nil
  | (k, v) :: tl => .cons k v (mkObj tl)

/-- Convenience constructor for array literals. -/
def mkArr : List Json → JsonList
  | [] => .nil
  | v :: tl => .cons v (mkArr tl)

/-- `validateSiteConfig` (part_009 lines 679-805): top-level parse with
    early return, per-section props validation, then the warning passes
    (missing seo, duplicate ids, locale heuristics).  `valid` is
    `errors.length === 0`. -/
def validateSiteConfig (config : Json) : VResult :=
  let tl := SiteConfigSchema config
  if tl.isEmpty then
    let sections := getSections config
    let errors := sections.enum.flatMap fun e =>
      validateSectionProps e.2.type e.2.props e.1
    let warnings := seoWarnings config
      ++ dupIdWarnings [] 0 (sections.map (·.id))
      ++ langWarnings config sections
    ⟨errors.isEmpty, errors, warnings⟩
  else
    ⟨false, tl.map fun i => ⟨renderTopPath i.path, i.message⟩, []⟩


/-! ## Derived notions for the redirect chain, and concrete instances -/

/-- One redirect hop as `doRequest` performs it: a `3xx` response with a
    `Location` header moves to the location resolved against the current
    URL; anything else stays put. -/
def redirectStep (net : String → ReqOutcome) (u : String) : String :=
  match net u with
  | .resp status (some loc) _ =>
    if 300 ≤ status ∧ status < 400 then resolveLocation loc u else u
  | _ => u

/-- The URL the `i`-th request of the chain starting at `u` is sent to. -/
def chainUrl (net : String → ReqOutcome) (u : String) (n : Nat) : String :=
  (redirectStep net)^[n] u

/-- A `3xx` response carrying a `Location` header. -/
def isRedirectResp : ReqOutcome → Bool
  | .resp s (some _) _ => 300 ≤ s && s < 400
  | _ => false

/-- A `2xx` response whose body transfer completes. -/
def isOkResp : ReqOutcome → Bool
  | .resp s _ .ok => 200 ≤ s && s < 300
  | _ => false

/-- Boolean equality on path segments, so path membership is decidable. -/
instance : BEq (Nat ⊕ String) := ⟨fun a b => decide (a = b)⟩

instance : LawfulBEq (Nat ⊕ String) where
  eq_of_beq h := of_decide_eq_true h
  rfl := decide_eq_true rfl

def netAllOk : String → ReqOutcome := fun _ => .resp 200 none .ok

def netReject : String → ReqOutcome := fun _ => .reqError

def netTimeoutMid : String → ReqOutcome := fun _ => .resp 200 none .timeoutMidBody

def netWriteErr : String → ReqOutcome := fun _ => .resp 200 none .writeStreamError

def urlPic : String := "http://x.com/pic.jpg"

/-- Three references to the same URL in different fields. -/
def cfgThreeRefs : Json :=
  .obj (mkObj [("a", .str urlPic), ("b", .str urlPic), ("c", .str urlPic)])

def cfgOneRef : Json := .obj (mkObj [("logo", .str urlPic)])

def urlImgA : String := "http://a.example/image.jpg"

def urlImgB : String := "http://b.example/image.jpg"

/-- Two distinct URLs sharing the derived base filename `image.jpg`. -/
def cfgTwoBasenames : Json :=
  .obj (mkObj [("a", .str urlImgA), ("b", .str urlImgB)])

def netRedirect3 : String → ReqOutcome := fun s =>
  if s = "http://x.com/r0" then .resp 301 (some "/r1") .ok
  else if s = "http://x.com/r1" then .resp 302 (some "/r2") .ok
  else if s = "http://x.com/r2" then .resp 307 (some "/r3") .ok
  else if s = "http://x.com/r3" then .resp 200 none .ok
  else .reqError

def netRedirectLoop : String → ReqOutcome := fun _ => .resp 301 (some "loop") .ok

/-! ### Concrete configurations for the validator claims -/

/-- A concrete configuration that passes the top-level schema and every
    per-section check, with two `text-block` sections sharing the id `"a"`. -/
def cfgDupIds : Json := .obj (mkObj [
  ("name", .str "Test"),
  ("defaultLanguage", .str "en"),
  ("theme", .obj (mkObj [
    ("colors", .obj (mkObj [("primary", .str "#fff"), ("background", .str "#000"),
      ("foreground", .str "#111")])),
    ("fonts", .obj (mkObj [
      ("heading", .obj (mkObj [("family", .str "A"),
        ("weights", .arr (mkArr [.num 400]))])),
      ("body", .obj (mkObj [("family", .str "B"),
        ("weights", .arr (mkArr [.num 400]))]))]))])),
  ("navigation", .obj (mkObj [("links", .arr (mkArr []))])),
  ("sections", .arr (mkArr [
    .obj (mkObj [("type", .str "text-block"), ("id", .str "a"),
      ("props", .obj (mkObj [("content", .str "hello")]))]),
    .obj (mkObj [("type", .str "text-block"), ("id", .str "a"),
      ("props", .obj (mkObj [("content", .str "world")]))])])),
  ("footer", .obj (mkObj [("copyright", .str "c")]))])

/-- First section: the unknown tag `"banner"`. -/
def secBanner : JsonObj := mkObj [("type", .str "banner"), ("id", .str "a"),
  ("props", .obj (mkObj [("content", .str "hello")]))]

/-- Second section: a known tag whose props are independently invalid
    (`text-block` without the required `content`). -/
def secNoContent : JsonObj := mkObj [("type", .str "text-block"), ("id", .str "b"),
  ("props", .obj (mkObj []))]

def badSections : JsonList := mkArr [.obj secBanner, .obj secNoContent]

/-- A configuration valid except for an unknown section type tag at index 0
    and a missing required prop at index 1. -/
def cfgBadType : Json := .obj (mkObj [
  ("name", .str "Test"),
  ("defaultLanguage", .str "en"),
  ("theme", .obj (mkObj [
    ("colors", .obj (mkObj [("primary", .str "#fff"), ("background", .str "#000"),
      ("foreground", .str "#111")])),
    ("fonts", .obj (mkObj [
      ("heading", .obj (mkObj [("family", .str "A"),
        ("weights", .arr (mkArr [.num 400]))])),
      ("body", .obj (mkObj [("family", .str "B"),
        ("weights", .arr (mkArr [.num 400]))]))]))])),
  ("navigation", .obj (mkObj [("links", .arr (mkArr []))])),
  ("sections", .arr badSections),
  ("footer", .obj (mkObj [("copyright", .str "c")]))])

/-- One hero stat item, valid under `heroStatItemS`. -/
def statA : Json := .obj (mkObj [("value", .str "15"), ("label", .str "Years")])

/-- Hero props with a single-entry `stats` list. -/
def heroPropsOneStat : Json :=
  .obj (mkObj [("title", .str "Welcome"), ("stats", .arr (mkArr [statA]))])

/-- Hero props with a five-entry `stats` list. -/
def heroPropsFiveStats : Json :=
  .obj (mkObj [("title", .str "Welcome"),
    ("stats", .arr (mkArr [statA, statA, statA, statA, statA]))])

/-! ## Lemmas about the remote-URL walker and the rewrite -/


theorem rewriteO_lookup (res : String → Option String) :
    ∀ (fs : JsonObj) (k : String),
    (rewriteO res fs).lookup k = (fs.lookup k).map (rewriteJson res)
  | .nil, k => rfl
  | .cons k0 v tl, k => by
    simp only [rewriteO, JsonObj.lookup]
    by_cases h : k0 = k
    · simp [h]
    · simp [h, rewriteO_lookup res tl k]

theorem rewriteStr (res : String → Option String) (s : String)
    (hr : isRemoteUrl s = true) :
    rewriteJson res (.str s) = .str ((res s).getD s) := by
  simp only [rewriteJson, hr, if_true]
  cases res s <;> simp [Option.getD]

mutual
theorem rewrite_getAt_json (res : String → Option String) :
    ∀ (t : Json), t.wfB = true → ∀ p u, (p, u) ∈ collectRemoteUrls t →
    getAt (rewriteJson res t) p = some (.str ((res u).getD u))
  | .null => by intro _ p u hm; simp [collectRemoteUrls] at hm
  | .bool _ => by intro _ p u hm; simp [collectRemoteUrls] at hm
  | .num _ => by intro _ p u hm; simp [collectRemoteUrls] at hm
  | .str _ => by intro _ p u hm; simp [collectRemoteUrls] at hm
  | .arr xs => by
    intro hwf p u hm
    simp only [collectRemoteUrls] at hm
    obtain ⟨k, p', rfl, hk, w, hw, hget⟩ :=
      rewrite_getAt_list res xs 0 hwf p u hm
    simp only [rewriteJson, getAt]
    rw [Nat.sub_zero] at hw
    rw [hw]
    exact hget
  | .obj fs => by
    intro hwf p u hm
    simp only [Json.wfB, Bool.and_eq_true] at hwf
    simp only [collectRemoteUrls] at hm
    obtain ⟨k, p', rfl, w, hw, hget⟩ :=
      rewrite_getAt_obj res fs hwf.1 hwf.2 p u hm
    simp only [rewriteJson, getAt]
    rw [hw]
    exact hget

theorem rewrite_getAt_list (res : String → Option String) :
    ∀ (xs : JsonList) (i : Nat), xs.wfB = true → ∀ p u, (p, u) ∈ collectL i xs →
    ∃ k p', p = .inl k :: p' ∧ i ≤ k ∧
      ∃ w, (rewriteL res xs).get? (k - i) = some w ∧
        getAt w p' = some (.str ((res u).getD u))
  | .nil => by intro i _ p u hm; simp [collectL] at hm
  | .cons v tl => by
    intro i hwf p u hm
    simp only [JsonList.wfB, Bool.and_eq_true] at hwf
    simp only [collectL, List.mem_append] at hm
    rcases hm with hm | hm
    · match v, hwf, hm with
      | .str s, hwf, hm =>
        by_cases hr : isRemoteUrl s = true
        · simp only [hr, if_true, List.mem_singleton, Prod.mk.injEq] at hm
          obtain ⟨rfl, rfl⟩ := hm
          exact ⟨i, [], rfl, Nat.le_refl i, .str ((res u).getD u),
            by simp [rewriteL, Nat.sub_self, JsonList.get?, rewriteStr res u hr], rfl⟩
        · simp [hr] at hm
      | .arr ys, hwf, hm =>
        obtain ⟨e, he, hee⟩ := List.mem_map.mp hm
        cases hee
        exact ⟨i, e.1, rfl, Nat.le_refl i, rewriteJson res (.arr ys),
          by simp [rewriteL, Nat.sub_self, JsonList.get?],
          rewrite_getAt_json res (.arr ys) hwf.1 e.1 e.2 he⟩
      | .obj ofs, hwf, hm =>
        obtain ⟨e, he, hee⟩ := List.mem_map.mp hm
        cases hee
        exact ⟨i, e.1, rfl, Nat.le_refl i, rewriteJson res (.obj ofs),
          by simp [rewriteL, Nat.sub_self, JsonList.get?],
          rewrite_getAt_json res (.obj ofs) hwf.1 e.1 e.2 he⟩
      | .null, _, hm => simp at hm
      | .bool _, _, hm => simp at hm
      | .num _, _, hm => simp at hm
    · obtain ⟨k, p', rfl, hk, w, hw, hget⟩ :=
        rewrite_getAt_list res tl (i + 1) hwf.2 p u hm
      refine ⟨k, p', rfl, Nat.le_of_succ_le hk, w, ?_, hget⟩
      have hki : k - i = (k - (i + 1)) + 1 := by omega
      rw [hki]
      simpa [rewriteL, JsonList.get?] using hw

theorem rewrite_getAt_obj (res : String → Option String) :
    ∀ (fs : JsonObj), distinctKeys fs = true → fs.wfB = true →
    ∀ p u, (p, u) ∈ collectO fs →
    ∃ k p', p = .inr k :: p' ∧
      ∃ w, (rewriteO res fs).lookup k = some w ∧
        getAt w p' = some (.str ((res u).getD u))
  | .nil => by intro _ _ p u hm; simp [collectO] at hm
  | .cons k0 v tl => by
    intro hdk hwf p u hm
    simp only [distinctKeys, Bool.and_eq_true, Bool.not_eq_true'] at hdk
    simp only [JsonObj.wfB, Bool.and_eq_true] at hwf
    simp only [collectO, List.mem_append] at hm
    rcases hm with hm | hm
    · match v, hwf, hm with
      | .str s, hwf, hm =>
        by_cases hr : isRemoteUrl s = true
        · simp only [hr, if_true, List.mem_singleton, Prod.mk.injEq] at hm
          obtain ⟨rfl, rfl⟩ := hm
          exact ⟨k0, [], rfl, .str ((res u).getD u),
            by simp [rewriteO, JsonObj.lookup, rewriteStr res u hr], rfl⟩
        · simp [hr] at hm
      | .arr ys, hwf, hm =>
        obtain ⟨e, he, hee⟩ := List.mem_map.mp hm
        cases hee
        exact ⟨k0, e.1, rfl, rewriteJson res (.arr ys),
          by simp [rewriteO, JsonObj.lookup],
          rewrite_getAt_json res (.arr ys) hwf.1 e.1 e.2 he⟩
      | .obj ofs, hwf, hm =>
        obtain ⟨e, he, hee⟩ := List.mem_map.mp hm
        cases hee
        exact ⟨k0, e.1, rfl, rewriteJson res (.obj ofs),
          by simp [rewriteO, JsonObj.lookup],
          rewrite_getAt_json res (.obj ofs) hwf.1 e.1 e.2 he⟩
      | .null, _, hm => simp at hm
      | .bool _, _, hm => simp at hm
      | .num _, _, hm => simp at hm
    · obtain ⟨k, p', rfl, w, hw, hget⟩ :=
        rewrite_getAt_obj res tl hdk.2 hwf.2 p u hm
      refine ⟨k, p', rfl, w, ?_, hget⟩
      have hkey : (tl.lookup k).isSome := by
        rw [rewriteO_lookup res tl k] at hw
        cases htl : tl.lookup k with
        | none => rw [htl] at hw; simp at hw
        | some _ => rfl
      have hne : k0 ≠ k := by
        intro h
        subst h
        rw [JsonObj.hasKey, hkey] at hdk
        exact Bool.noConfusion hdk.1
      simp only [rewriteO, JsonObj.lookup, if_neg hne]
      exact hw
end



mutual
theorem collect_rewrite_json (res : String → Option String) :
    ∀ (t : Json),
    (∀ u, u ∈ (collectRemoteUrls t).map (·.2) →
      ∃ v, res u = some v ∧ isRemoteUrl v = false) →
    collectRemoteUrls (rewriteJson res t) = []
  | .null => fun _ => rfl
  | .bool _ => fun _ => rfl
  | .num _ => fun _ => rfl
  | .str s => by
    intro _
    simp only [rewriteJson]
    by_cases hr : isRemoteUrl s = true
    · simp only [hr, if_true]
      cases res s <;> simp [collectRemoteUrls]
    · simp [hr, collectRemoteUrls]
  | .arr xs => by
    intro h
    simp only [rewriteJson, collectRemoteUrls]
    exact collect_rewrite_list res xs 0 (by simpa [collectRemoteUrls] using h)
  | .obj fs => by
    intro h
    simp only [rewriteJson, collectRemoteUrls]
    exact collect_rewrite_obj res fs (by simpa [collectRemoteUrls] using h)

theorem collect_rewrite_list (res : String → Option String) :
    ∀ (xs : JsonList) (i : Nat),
    (∀ u, u ∈ (collectL i xs).map (·.2) →
      ∃ v, res u = some v ∧ isRemoteUrl v = false) →
    collectL i (rewriteL res xs) = []
  | .nil => fun _ _ => rfl
  | .cons v tl => by
    intro i h
    have hhead : ∀ u, u ∈ (collectRemoteUrls v).map (·.2) →
        ∃ w, res u = some w ∧ isRemoteUrl w = false := by
      intro u hu
      refine h u ?_
      simp only [collectL, List.map_append, List.mem_append]
      left
      match v, hu with
      | .arr ys, hu => simpa using hu
      | .obj ofs, hu => simpa using hu
      | .null, hu => simp [collectRemoteUrls] at hu
      | .bool _, hu => simp [collectRemoteUrls] at hu
      | .num _, hu => simp [collectRemoteUrls] at hu
      | .str s, hu => simp [collectRemoteUrls] at hu
    have htl : ∀ u, u ∈ (collectL (i + 1) tl).map (·.2) →
        ∃ w, res u = some w ∧ isRemoteUrl w = false := by
      intro u hu
      refine h u ?_
      simp only [collectL, List.map_append, List.mem_append]
      right
      exact hu
    simp only [rewriteL, collectL]
    rw [collect_rewrite_list res tl (i + 1) htl, List.append_nil]
    match v, h, hhead with
    | .str s, h, hhead =>
      by_cases hr : isRemoteUrl s = true
      · have hs : s ∈ (collectL i (JsonList.cons (.str s) tl)).map (·.2) := by
          simp [collectL, hr]
        obtain ⟨w, hw, hwr⟩ := h s hs
        simp [rewriteJson, hr, hw, hwr]
      · simp [rewriteJson, hr]
    | .arr ys, _, hhead =>
      have := collect_rewrite_json res (.arr ys) hhead
      simp only [rewriteJson] at this ⊢
      simp [this]
    | .obj ofs, _, hhead =>
      have := collect_rewrite_json res (.obj ofs) hhead
      simp only [rewriteJson] at this ⊢
      simp [this]
    | .null, _, _ => rfl
    | .bool _, _, _ => rfl
    | .num _, _, _ => rfl

theorem collect_rewrite_obj (res : String → Option String) :
    ∀ (fs : JsonObj),
    (∀ u, u ∈ (collectO fs).map (·.2) →
      ∃ v, res u = some v ∧ isRemoteUrl v = false) →
    collectO (rewriteO res fs) = []
  | .nil => fun _ => rfl
  | .cons k0 v tl => by
    intro h
    have hhead : ∀ u, u ∈ (collectRemoteUrls v).map (·.2) →
        ∃ w, res u = some w ∧ isRemoteUrl w = false := by
      intro u hu
      refine h u ?_
      simp only [collectO, List.map_append, List.mem_append]
      left
      match v, hu with
      | .arr ys, hu => simpa using hu
      | .obj ofs, hu => simpa using hu
      | .null, hu => simp [collectRemoteUrls] at hu
      | .bool _, hu => simp [collectRemoteUrls] at hu
      | .num _, hu => simp [collectRemoteUrls] at hu
      | .str s, hu => simp [collectRemoteUrls] at hu
    have htl : ∀ u, u ∈ (collectO tl).map (·.2) →
        ∃ w, res u = some w ∧ isRemoteUrl w = false := by
      intro u hu
      refine h u ?_
      simp only [collectO, List.map_append, List.mem_append]
      right
      exact hu
    simp only [rewriteO, collectO]
    rw [collect_rewrite_obj res tl htl, List.append_nil]
    match v, h, hhead with
    | .str s, h, hhead =>
      by_cases hr : isRemoteUrl s = true
      · have hs : s ∈ (collectO (JsonObj.cons k0 (.str s) tl)).map (·.2) := by
          simp [collectO, hr]
        obtain ⟨w, hw, hwr⟩ := h s hs
        simp [rewriteJson, hr, hw, hwr]
      · simp [rewriteJson, hr]
    | .arr ys, _, hhead =>
      have := collect_rewrite_json res (.arr ys) hhead
      simp only [rewriteJson] at this ⊢
      simp [this]
    | .obj ofs, _, hhead =>
      have := collect_rewrite_json res (.obj ofs) hhead
      simp only [rewriteJson] at this ⊢
      simp [this]
    | .null, _, _ => rfl
    | .bool _, _, _ => rfl
    | .num _, _, _ => rfl
end

/-- Root-level wrapper. -/
theorem collect_rewriteConfig (res : String → Option String) (t : Json)
    (h : ∀ u, u ∈ (collectRemoteUrls t).map (·.2) →
      ∃ v, res u = some v ∧ isRemoteUrl v = false) :
    collectRemoteUrls (rewriteConfig res t) = [] := by
  match t with
  | .str s => rfl
  | .null => rfl
  | .bool _ => rfl
  | .num _ => rfl
  | .arr xs => exact collect_rewrite_json res (.arr xs) h
  | .obj fs => exact collect_rewrite_json res (.obj fs) h


/-! ## Lemmas about the download loop -/


/-- The cache-skip branch of the URL loop (source lines 326-334). -/
theorem processUrl_skip (net : String → ReqOutcome) (d : String)
    (st : DState) (g : String × List JPath)
    (h : localFilenameFromUrl g.1 ∈ st.fs) :
    processUrl net d st g =
      { st with
        reserved := st.reserved ++
          [uniqueFilename st.fs st.reserved (localFilenameFromUrl g.1)],
        skipped := st.skipped + 1,
        sets := st.sets ++
          g.2.map (fun p => (p, joinPath d (localFilenameFromUrl g.1))),
        res := st.res ++ [(g.1, joinPath d (localFilenameFromUrl g.1))] } := by
  simp only [processUrl, h, if_true]

/-- The successful-download branch (source lines 337-345). -/
theorem processUrl_success (net : String → ReqOutcome) (d : String)
    (st : DState) (g : String × List JPath) (b : Bool)
    (h : localFilenameFromUrl g.1 ∉ st.fs)
    (hdl : downloadFile net g.1 = (.success, b)) :
    processUrl net d st g =
      { st with
        reserved := st.reserved ++
          [uniqueFilename st.fs st.reserved (localFilenameFromUrl g.1)],
        fetched := st.fetched ++ [g.1],
        fs := st.fs ++ [uniqueFilename st.fs st.reserved (localFilenameFromUrl g.1)],
        downloaded := st.downloaded + 1,
        sets := st.sets ++ g.2.map (fun p =>
          (p, joinPath d (uniqueFilename st.fs st.reserved (localFilenameFromUrl g.1)))),
        res := st.res ++ [(g.1,
          joinPath d (uniqueFilename st.fs st.reserved (localFilenameFromUrl g.1)))] } := by
  simp only [processUrl, h, if_false, hdl]

/-- The failed-download branch (source lines 346-350): the error is recorded
    and the file stays on disk exactly when the failure left it there. -/
theorem processUrl_fail (net : String → ReqOutcome) (d : String)
    (st : DState) (g : String × List JPath) (r : DlResult) (b : Bool)
    (h : localFilenameFromUrl g.1 ∉ st.fs)
    (hdl : downloadFile net g.1 = (r, b)) (hr : r ≠ .success) :
    processUrl net d st g =
      { st with
        reserved := st.reserved ++
          [uniqueFilename st.fs st.reserved (localFilenameFromUrl g.1)],
        fetched := st.fetched ++ [g.1],
        errors := st.errors ++ ["Failed to download " ++ g.1],
        fs := if b then st.fs ++
          [uniqueFilename st.fs st.reserved (localFilenameFromUrl g.1)] else st.fs } := by
  simp only [processUrl, h, if_false, hdl]

theorem processUrl_errors_mono (net : String → ReqOutcome) (d : String)
    (st : DState) (g : String × List JPath) :
    ∃ l, (processUrl net d st g).errors = st.errors ++ l := by
  by_cases h : localFilenameFromUrl g.1 ∈ st.fs
  · rw [processUrl_skip net d st g h]
    exact ⟨[], by simp⟩
  · rcases hdl : downloadFile net g.1 with ⟨r, b⟩
    by_cases hr : r = .success
    · subst hr
      rw [processUrl_success net d st g b h hdl]
      exact ⟨[], by simp⟩
    · rw [processUrl_fail net d st g r b h hdl hr]
      exact ⟨["Failed to download " ++ g.1], rfl⟩

theorem processUrl_res_mono (net : String → ReqOutcome) (d : String)
    (st : DState) (g : String × List JPath) :
    ∃ l, (processUrl net d st g).res = st.res ++ l := by
  by_cases h : localFilenameFromUrl g.1 ∈ st.fs
  · rw [processUrl_skip net d st g h]
    exact ⟨_, rfl⟩
  · rcases hdl : downloadFile net g.1 with ⟨r, b⟩
    by_cases hr : r = .success
    · subst hr
      rw [processUrl_success net d st g b h hdl]
      exact ⟨_, rfl⟩
    · rw [processUrl_fail net d st g r b h hdl hr]
      exact ⟨[], by simp⟩

theorem foldl_errors_mono (net : String → ReqOutcome) (d : String) :
    ∀ (gs : List (String × List JPath)) (st : DState),
    ∃ l, (gs.foldl (processUrl net d) st).errors = st.errors ++ l
  | [], st => ⟨[], by simp⟩
  | g :: gs, st => by
    obtain ⟨l1, h1⟩ := processUrl_errors_mono net d st g
    obtain ⟨l2, h2⟩ := foldl_errors_mono net d gs (processUrl net d st g)
    exact ⟨l1 ++ l2, by simp [h2, h1]⟩

theorem foldl_res_mono (net : String → ReqOutcome) (d : String) :
    ∀ (gs : List (String × List JPath)) (st : DState),
    ∃ l, (gs.foldl (processUrl net d) st).res = st.res ++ l
  | [], st => ⟨[], by simp⟩
  | g :: gs, st => by
    obtain ⟨l1, h1⟩ := processUrl_res_mono net d st g
    obtain ⟨l2, h2⟩ := foldl_res_mono net d gs (processUrl net d st g)
    exact ⟨l1 ++ l2, by simp [h2, h1]⟩

/-- Every resolution the loop records points into the assets directory. -/
theorem processUrl_res_shape (net : String → ReqOutcome) (d : String)
    (st : DState) (g : String × List JPath)
    (h : ∀ e ∈ st.res, ∃ f, e.2 = joinPath d f) :
    ∀ e ∈ (processUrl net d st g).res, ∃ f, e.2 = joinPath d f := by
  by_cases hc : localFilenameFromUrl g.1 ∈ st.fs
  · rw [processUrl_skip net d st g hc]
    intro e he
    simp only [List.mem_append, List.mem_singleton] at he
    rcases he with he | he
    · exact h e he
    · exact ⟨_, by rw [he]⟩
  · rcases hdl : downloadFile net g.1 with ⟨r, b⟩
    by_cases hr : r = .success
    · subst hr
      rw [processUrl_success net d st g b hc hdl]
      intro e he
      simp only [List.mem_append, List.mem_singleton] at he
      rcases he with he | he
      · exact h e he
      · exact ⟨_, by rw [he]⟩
    · rw [processUrl_fail net d st g r b hc hdl hr]
      exact fun e he => h e he

theorem foldl_res_shape (net : String → ReqOutcome) (d : String) :
    ∀ (gs : List (String × List JPath)) (st : DState),
    (∀ e ∈ st.res, ∃ f, e.2 = joinPath d f) →
    ∀ e ∈ (gs.foldl (processUrl net d) st).res, ∃ f, e.2 = joinPath d f
  | [], _, h => h
  | g :: gs, st, h =>
    foldl_res_shape net d gs (processUrl net d st g)
      (processUrl_res_shape net d st g h)

theorem append_singleton_ne_self {α : Type} (l : List α) (a : α) :
    l ++ [a] ≠ l := by
  intro h
  have := congrArg List.length h
  simp at this

/-- A step that records no error records a resolution for its URL. -/
theorem processUrl_no_error_res (net : String → ReqOutcome) (d : String)
    (st : DState) (g : String × List JPath)
    (h : (processUrl net d st g).errors = st.errors) :
    ∃ f, (processUrl net d st g).res = st.res ++ [(g.1, joinPath d f)] := by
  by_cases hc : localFilenameFromUrl g.1 ∈ st.fs
  · rw [processUrl_skip net d st g hc]
    exact ⟨_, rfl⟩
  · rcases hdl : downloadFile net g.1 with ⟨r, b⟩
    by_cases hr : r = .success
    · subst hr
      rw [processUrl_success net d st g b hc hdl]
      exact ⟨_, rfl⟩
    · rw [processUrl_fail net d st g r b hc hdl hr] at h
      exact absurd h (append_singleton_ne_self _ _)

theorem foldl_coverage (net : String → ReqOutcome) (d : String) :
    ∀ (gs : List (String × List JPath)) (st : DState),
    (gs.foldl (processUrl net d) st).errors = st.errors →
    ∀ g ∈ gs, ∃ e ∈ (gs.foldl (processUrl net d) st).res, e.1 = g.1
  | [], _, _, g, hg => absurd hg (List.not_mem_nil g)
  | g0 :: gs, st, herr, g, hg => by
    obtain ⟨l1, h1⟩ := processUrl_errors_mono net d st g0
    obtain ⟨l2, h2⟩ := foldl_errors_mono net d gs (processUrl net d st g0)
    simp only [List.foldl_cons] at herr
    have hnil : l1 ++ l2 = [] := by
      have : st.errors ++ (l1 ++ l2) = st.errors ++ [] := by
        rw [← List.append_assoc, ← h1, ← h2, herr, List.append_nil]
      exact List.append_cancel_left this
    have hst1 : (processUrl net d st g0).errors = st.errors := by
      rw [h1, (List.append_eq_nil.mp hnil).1, List.append_nil]
    simp only [List.foldl_cons]
    rcases List.mem_cons.mp hg with rfl | hg'
    · obtain ⟨f, hf⟩ := processUrl_no_error_res net d st g hst1
      obtain ⟨l3, h3⟩ := foldl_res_mono net d gs (processUrl net d st g)
      refine ⟨(g.1, joinPath d f), ?_, rfl⟩
      rw [h3, hf]
      simp
    · have herr' : (gs.foldl (processUrl net d) (processUrl net d st g0)).errors
          = (processUrl net d st g0).errors := by
        rw [h2, (List.append_eq_nil.mp hnil).2, List.append_nil]
      exact foldl_coverage net d gs (processUrl net d st g0) herr' g hg'



theorem processUrl_fetched_cases (net : String → ReqOutcome) (d : String)
    (st : DState) (g : String × List JPath) :
    (processUrl net d st g).fetched = st.fetched ∨
    (processUrl net d st g).fetched = st.fetched ++ [g.1] := by
  by_cases h : localFilenameFromUrl g.1 ∈ st.fs
  · rw [processUrl_skip net d st g h]
    exact Or.inl rfl
  · rcases hdl : downloadFile net g.1 with ⟨r, b⟩
    by_cases hr : r = .success
    · subst hr
      rw [processUrl_success net d st g b h hdl]
      exact Or.inr rfl
    · rw [processUrl_fail net d st g r b h hdl hr]
      exact Or.inr rfl

/-- Across the whole loop, a URL is fetched at most as often as it occurs in
    the group list. -/
theorem foldl_fetched_count (net : String → ReqOutcome) (d : String) :
    ∀ (gs : List (String × List JPath)) (st : DState) (w : String),
    ((gs.foldl (processUrl net d) st).fetched).count w ≤
      st.fetched.count w + (gs.map (·.1)).count w
  | [], st, w => by simp
  | g :: gs, st, w => by
    have ih := foldl_fetched_count net d gs (processUrl net d st g) w
    simp only [List.foldl_cons, List.map_cons]
    have hc : List.count w (g.1 :: gs.map (·.1)) =
        List.count w (gs.map (·.1)) + (if g.1 = w then 1 else 0) := by
      simp [List.count_cons]
    rcases processUrl_fetched_cases net d st g with hcase | hcase
    · rw [hcase] at ih
      rw [hc]
      omega
    · rw [hcase, List.count_append] at ih
      have h1 : List.count w [g.1] = (if g.1 = w then 1 else 0) := by
        simp [List.count_cons]
      rw [h1] at ih
      rw [hc]
      omega

/-- The unique-URL list produced by `deduplicateByUrl`. -/
theorem dedup_fold_mem (u : String) :
    ∀ (l : List (JPath × String)) (acc : List String),
    u ∈ l.foldl (fun acc e => if e.2 ∈ acc then acc else acc ++ [e.2]) acc ↔
      u ∈ acc ∨ u ∈ l.map (·.2)
  | [], acc => by simp
  | e :: l, acc => by
    simp only [List.foldl_cons, List.map_cons, List.mem_cons]
    rw [dedup_fold_mem u l]
    split
    · rename_i hmem
      constructor
      · rintro (h | h)
        · exact Or.inl h
        · exact Or.inr (Or.inr h)
      · rintro (h | h | h)
        · exact Or.inl h
        · exact Or.inl (h ▸ hmem)
        · exact Or.inr h
    · simp only [List.mem_append, List.mem_singleton]
      constructor
      · rintro ((h | h) | h)
        · exact Or.inl h
        · exact Or.inr (Or.inl h)
        · exact Or.inr (Or.inr h)
      · rintro (h | h | h)
        · exact Or.inl (Or.inl h)
        · exact Or.inl (Or.inr h)
        · exact Or.inr h

theorem dedup_fold_nodup :
    ∀ (l : List (JPath × String)) (acc : List String), acc.Nodup →
    (l.foldl (fun acc e => if e.2 ∈ acc then acc else acc ++ [e.2]) acc).Nodup
  | [], _, h => h
  | e :: l, acc, h => by
    simp only [List.foldl_cons]
    split
    · exact dedup_fold_nodup l acc h
    · rename_i hmem
      refine dedup_fold_nodup l (acc ++ [e.2]) ?_
      simp [List.nodup_append, h, hmem]

theorem map_fst_keyed (g : String → List JPath) :
    ∀ l : List String,
    ((l.map fun u => ((u, g u) : String × List JPath)).map (·.1)) = l
  | [] => rfl
  | u :: l => by simp [map_fst_keyed g l]

theorem deduplicateByUrl_keys (entries : List (JPath × String)) :
    (deduplicateByUrl entries).map (·.1) =
      entries.foldl (fun acc e => if e.2 ∈ acc then acc else acc ++ [e.2]) [] := by
  simp only [deduplicateByUrl]
  exact map_fst_keyed _ _

theorem deduplicateByUrl_keys_nodup (entries : List (JPath × String)) :
    ((deduplicateByUrl entries).map (·.1)).Nodup := by
  rw [deduplicateByUrl_keys]
  exact dedup_fold_nodup entries [] List.nodup_nil

theorem deduplicateByUrl_mem_keys (entries : List (JPath × String)) (u : String) :
    u ∈ (deduplicateByUrl entries).map (·.1) ↔ u ∈ entries.map (·.2) := by
  rw [deduplicateByUrl_keys, dedup_fold_mem]
  simp

/-- Each group carries exactly the slot paths collected for its URL. -/
theorem deduplicateByUrl_group (entries : List (JPath × String))
    (g : String × List JPath) (hg : g ∈ deduplicateByUrl entries) :
    g.2 = (entries.filter (·.2 = g.1)).map (·.1) := by
  simp only [deduplicateByUrl, List.mem_map] at hg
  obtain ⟨u, _, rfl⟩ := hg
  rfl

/-- First-match lookup in a keyed map built over a url list. -/
theorem find?_map_key (f : String → String) :
    ∀ (urls : List String) (u : String), u ∈ urls →
    ((urls.map fun x => (x, f x)).find? (·.1 = u)) = some (u, f u)
  | [], u, h => absurd h (List.not_mem_nil u)
  | x :: urls, u, h => by
    simp only [List.map_cons, List.find?_cons]
    by_cases hx : x = u
    · subst hx
      simp
    · have hdec : (decide ((x, f x).1 = u)) = false := by
        simp [hx]
      rw [hdec]
      exact find?_map_key f urls u (List.mem_cons.mp h |>.resolve_left
        fun hh => hx hh.symm)

/-- A filename that is neither on disk nor reserved is used as-is. -/
theorem uniqueFilename_fresh (fsFiles reserved : List String) (filename : String)
    (h1 : filename ∉ fsFiles) (h2 : filename ∉ reserved) :
    uniqueFilename fsFiles reserved filename = filename := by
  simp [uniqueFilename, h1, h2]



/-- A fresh run: when every group's derived filename is absent from disk and
    the reservation set, the derived names are pairwise distinct and every
    download succeeds, the loop downloads each unique URL exactly once under
    its derived name and resolves it to the assets-relative path. -/
theorem foldl_fresh_run (net : String → ReqOutcome) (d : String) :
    ∀ (gs : List (String × List JPath)) (st : DState),
    (∀ g ∈ gs, downloadFile net g.1 = (.success, true)) →
    (∀ g ∈ gs, localFilenameFromUrl g.1 ∉ st.fs) →
    (∀ g ∈ gs, localFilenameFromUrl g.1 ∉ st.reserved) →
    (gs.map fun g => localFilenameFromUrl g.1).Nodup →
    gs.foldl (processUrl net d) st =
      { st with
        fs := st.fs ++ gs.map (fun g => localFilenameFromUrl g.1),
        reserved := st.reserved ++ gs.map (fun g => localFilenameFromUrl g.1),
        downloaded := st.downloaded + gs.length,
        fetched := st.fetched ++ gs.map (·.1),
        sets := st.sets ++ gs.flatMap (fun g =>
          g.2.map fun p => (p, joinPath d (localFilenameFromUrl g.1))),
        res := st.res ++ gs.map (fun g =>
          (g.1, joinPath d (localFilenameFromUrl g.1))) }
  | [], st, _, _, _, _ => by
    cases st
    simp
  | g :: gs, st, hok, hfs, hres, hnd => by
    have hraw := uniqueFilename_fresh st.fs st.reserved (localFilenameFromUrl g.1)
      (hfs g (List.mem_cons_self g gs)) (hres g (List.mem_cons_self g gs))
    have hstep := processUrl_success net d st g true
      (hfs g (List.mem_cons_self g gs)) (hok g (List.mem_cons_self g gs))
    rw [hraw] at hstep
    have hnd' := List.nodup_cons.mp hnd
    have ih := foldl_fresh_run net d gs (processUrl net d st g)
      (fun g' hg' => hok g' (List.mem_cons_of_mem g hg'))
      (fun g' hg' => by
        rw [hstep]
        simp only [List.mem_append, List.mem_singleton]
        push_neg
        refine ⟨hfs g' (List.mem_cons_of_mem g hg'), fun hcontra => hnd'.1 ?_⟩
        show localFilenameFromUrl g.1 ∈ gs.map fun g0 => localFilenameFromUrl g0.1
        rw [← hcontra]
        exact List.mem_map_of_mem (fun g0 => localFilenameFromUrl g0.1) hg')
      (fun g' hg' => by
        rw [hstep]
        simp only [List.mem_append, List.mem_singleton]
        push_neg
        refine ⟨hres g' (List.mem_cons_of_mem g hg'), fun hcontra => hnd'.1 ?_⟩
        show localFilenameFromUrl g.1 ∈ gs.map fun g0 => localFilenameFromUrl g0.1
        rw [← hcontra]
        exact List.mem_map_of_mem (fun g0 => localFilenameFromUrl g0.1) hg')
      hnd'.2
    simp only [List.foldl_cons]
    rw [ih, hstep]
    simp [List.append_assoc]
    omega


/-! ## Claim theorems for the asset downloader -/


theorem rewrite_getAt_config (res : String → Option String) (t : Json)
    (hwf : Json.wfB t = true) (p : JPath) (u : String)
    (hm : (p, u) ∈ collectRemoteUrls t) :
    getAt (rewriteConfig res t) p = some (.str ((res u).getD u)) := by
  match t with
  | .str s => simp [collectRemoteUrls] at hm
  | .null => simp [collectRemoteUrls] at hm
  | .bool _ => simp [collectRemoteUrls] at hm
  | .num _ => simp [collectRemoteUrls] at hm
  | .arr xs => exact rewrite_getAt_json res (.arr xs) hwf p u hm
  | .obj fs => exact rewrite_getAt_json res (.obj fs) hwf p u hm

/-- C10: `downloadAssets` writes the configuration file back iff at least
    one remote reference was collected; with no references it returns with
    nothing touched, and when references exist the file is rewritten even if
    downloads failed, unresolved URLs keeping their original remote
    values. -/
theorem downloadAssets_write_iff (net : String → ReqOutcome) (assetsDir : String)
    (config : Json) (fs0 : List String) :
    (downloadAssets net assetsDir config fs0).wroteConfig
        = !(collectRemoteUrls config).isEmpty
    ∧ ((collectRemoteUrls config).isEmpty = true →
        downloadAssets net assetsDir config fs0 =
          ⟨config, fs0, 0, 0, [], [], [], [], false⟩)
    ∧ (Json.wfB config = true → ∀ p u, (p, u) ∈ collectRemoteUrls config →
        ((downloadAssets net assetsDir config fs0).res.find? (·.1 = u)) = none →
        getAt (downloadAssets net assetsDir config fs0).config p = some (.str u)) := by
  by_cases hE : (collectRemoteUrls config).isEmpty
  · refine ⟨by simp [downloadAssets, hE], fun _ => by simp [downloadAssets, hE], ?_⟩
    intro _ p u hm _
    rw [List.isEmpty_iff] at hE
    rw [hE] at hm
    exact absurd hm (List.not_mem_nil _)
  · rw [Bool.not_eq_true] at hE
    refine ⟨by simp [downloadAssets, hE], fun h => absurd h (by simp [hE]), ?_⟩
    intro hwf p u hm hnone
    have hres : (downloadAssets net assetsDir config fs0).res =
        ((deduplicateByUrl (collectRemoteUrls config)).foldl
          (processUrl net assetsDir) ⟨fs0, [], 0, 0, [], [], [], []⟩).res := by
      simp [downloadAssets, hE]
    have hconf : (downloadAssets net assetsDir config fs0).config =
        rewriteConfig (fun u' =>
          (((deduplicateByUrl (collectRemoteUrls config)).foldl
            (processUrl net assetsDir) ⟨fs0, [], 0, 0, [], [], [], []⟩).res.find?
              (·.1 = u')).map (·.2)) config := by
      simp [downloadAssets, hE]
    rw [hres] at hnone
    rw [hconf]
    have := rewrite_getAt_config (fun u' =>
        (((deduplicateByUrl (collectRemoteUrls config)).foldl
          (processUrl net assetsDir) ⟨fs0, [], 0, 0, [], [], [], []⟩).res.find?
            (·.1 = u')).map (·.2)) config hwf p u hm
    rw [this]
    simp [hnone]



/-- After an error-free run every collected URL has a resolution recorded,
    and every resolution points into the assets directory. -/
theorem run_resolves_all (net : String → ReqOutcome) (assetsDir : String)
    (config : Json) (fs0 : List String)
    (hA : ∀ f, isRemoteUrl (joinPath assetsDir f) = false)
    (h1 : (downloadAssets net assetsDir config fs0).errors = []) :
    collectRemoteUrls (downloadAssets net assetsDir config fs0).config = [] := by
  by_cases hE : (collectRemoteUrls config).isEmpty
  · have : (downloadAssets net assetsDir config fs0).config = config := by
      simp [downloadAssets, hE]
    rw [this]
    exact List.isEmpty_iff.mp hE
  · rw [Bool.not_eq_true] at hE
    have hconf : (downloadAssets net assetsDir config fs0).config =
        rewriteConfig (fun u' =>
          (((deduplicateByUrl (collectRemoteUrls config)).foldl
            (processUrl net assetsDir) ⟨fs0, [], 0, 0, [], [], [], []⟩).res.find?
              (·.1 = u')).map (·.2)) config := by
      simp [downloadAssets, hE]
    have herr : ((deduplicateByUrl (collectRemoteUrls config)).foldl
        (processUrl net assetsDir) ⟨fs0, [], 0, 0, [], [], [], []⟩).errors = [] := by
      have : (downloadAssets net assetsDir config fs0).errors =
          ((deduplicateByUrl (collectRemoteUrls config)).foldl
            (processUrl net assetsDir) ⟨fs0, [], 0, 0, [], [], [], []⟩).errors := by
        simp [downloadAssets, hE]
      rw [← this, h1]
    rw [hconf]
    apply collect_rewriteConfig
    intro u hu
    -- u is the URL of some collected entry, hence heads some dedup group
    have hukey : u ∈ (deduplicateByUrl (collectRemoteUrls config)).map (·.1) :=
      (deduplicateByUrl_mem_keys (collectRemoteUrls config) u).mpr hu
    obtain ⟨g, hg, hgu⟩ := List.mem_map.mp hukey
    obtain ⟨e, he, heu⟩ := foldl_coverage net assetsDir
      (deduplicateByUrl (collectRemoteUrls config))
      ⟨fs0, [], 0, 0, [], [], [], []⟩ herr g hg
    have hfind : (((deduplicateByUrl (collectRemoteUrls config)).foldl
        (processUrl net assetsDir) ⟨fs0, [], 0, 0, [], [], [], []⟩).res.find?
          (·.1 = u)).isSome := by
      rw [List.find?_isSome]
      exact ⟨e, he, by simp [heu, hgu]⟩
    obtain ⟨e', hfind'⟩ := Option.isSome_iff_exists.mp hfind
    have he'mem := List.mem_of_find?_eq_some hfind'
    obtain ⟨f, hf⟩ := foldl_res_shape net assetsDir
      (deduplicateByUrl (collectRemoteUrls config))
      ⟨fs0, [], 0, 0, [], [], [], []⟩ (by intro e0 he0; simp at he0) e' he'mem
    refine ⟨e'.2, ?_, ?_⟩
    · simp [hfind']
    · rw [hf]
      exact hA f

/-- C2: a second run after an error-free first run against the same
    configuration file and destination directory performs zero network
    fetches and leaves the rewritten configuration unchanged. -/
theorem downloadAssets_idempotent (net : String → ReqOutcome) (assetsDir : String)
    (config : Json) (fs0 : List String)
    (hA : ∀ f, isRemoteUrl (joinPath assetsDir f) = false)
    (h1 : (downloadAssets net assetsDir config fs0).errors = []) :
    downloadAssets net assetsDir
        (downloadAssets net assetsDir config fs0).config
        (downloadAssets net assetsDir config fs0).fs =
      ⟨(downloadAssets net assetsDir config fs0).config,
       (downloadAssets net assetsDir config fs0).fs, 0, 0, [], [], [], [], false⟩ := by
  have hcoll := run_resolves_all net assetsDir config fs0 hA h1
  generalize (downloadAssets net assetsDir config fs0) = r at hcoll ⊢
  simp [downloadAssets, hcoll]



/-- C1 (amended): per run, a unique URL is fetched at most once -- and in a
    fresh run with pairwise-distinct derived filenames and successful
    downloads, exactly once, with every collected setter for the URL invoked
    with the same assets-relative path, so all its slots hold that value. -/
theorem downloadAssets_dedup :
    (∀ (net : String → ReqOutcome) (assetsDir : String) (config : Json)
        (fs0 : List String) (w : String),
      (downloadAssets net assetsDir config fs0).fetched.count w ≤ 1)
    ∧ (∀ (net : String → ReqOutcome) (assetsDir : String) (config : Json)
        (fs0 : List String) (u : String),
      Json.wfB config = true →
      u ∈ (collectRemoteUrls config).map (·.2) →
      (∀ w ∈ (collectRemoteUrls config).map (·.2),
        downloadFile net w = (.success, true)) →
      (∀ w ∈ (collectRemoteUrls config).map (·.2),
        localFilenameFromUrl w ∉ fs0) →
      ((((deduplicateByUrl (collectRemoteUrls config)).map (·.1)).map
        localFilenameFromUrl).Nodup) →
      (downloadAssets net assetsDir config fs0).fetched.count u = 1
      ∧ ∀ p, (p, u) ∈ collectRemoteUrls config →
          (p, joinPath assetsDir (localFilenameFromUrl u))
            ∈ (downloadAssets net assetsDir config fs0).sets
          ∧ getAt (downloadAssets net assetsDir config fs0).config p
            = some (.str (joinPath assetsDir (localFilenameFromUrl u)))) := by
  constructor
  · intro net assetsDir config fs0 w
    by_cases hE : (collectRemoteUrls config).isEmpty
    · simp [downloadAssets, hE]
    · rw [Bool.not_eq_true] at hE
      have hfetched : (downloadAssets net assetsDir config fs0).fetched =
          ((deduplicateByUrl (collectRemoteUrls config)).foldl
            (processUrl net assetsDir) ⟨fs0, [], 0, 0, [], [], [], []⟩).fetched := by
        simp [downloadAssets, hE]
      rw [hfetched]
      have hb := foldl_fetched_count net assetsDir
        (deduplicateByUrl (collectRemoteUrls config))
        ⟨fs0, [], 0, 0, [], [], [], []⟩ w
      have hnd := deduplicateByUrl_keys_nodup (collectRemoteUrls config)
      have h1 := List.nodup_iff_count_le_one.mp hnd w
      simp only [List.count_nil] at hb
      omega
  · intro net assetsDir config fs0 u hwf hu hok hfresh hnd
    have hne : (collectRemoteUrls config).isEmpty = false := by
      cases hcoll : collectRemoteUrls config with
      | nil => rw [hcoll] at hu; exact absurd hu (by simp)
      | cons a l => simp
    have hkeys : ∀ g ∈ deduplicateByUrl (collectRemoteUrls config),
        g.1 ∈ (collectRemoteUrls config).map (·.2) := by
      intro g hg
      exact (deduplicateByUrl_mem_keys (collectRemoteUrls config) g.1).mp
        (List.mem_map_of_mem (·.1) hg)
    have hndraw : ((deduplicateByUrl (collectRemoteUrls config)).map
        fun g => localFilenameFromUrl g.1).Nodup := by
      have : ((deduplicateByUrl (collectRemoteUrls config)).map
          fun g => localFilenameFromUrl g.1) =
          (((deduplicateByUrl (collectRemoteUrls config)).map (·.1)).map
            localFilenameFromUrl) := by
        rw [List.map_map]
        rfl
      rw [this]
      exact hnd
    have hfold := foldl_fresh_run net assetsDir
      (deduplicateByUrl (collectRemoteUrls config))
      ⟨fs0, [], 0, 0, [], [], [], []⟩
      (fun g hg => hok g.1 (hkeys g hg))
      (fun g hg => hfresh g.1 (hkeys g hg))
      (fun g hg => by simp)
      hndraw
    have hukey : u ∈ (deduplicateByUrl (collectRemoteUrls config)).map (·.1) :=
      (deduplicateByUrl_mem_keys (collectRemoteUrls config) u).mpr hu
    constructor
    · have hfetched : (downloadAssets net assetsDir config fs0).fetched =
          ((deduplicateByUrl (collectRemoteUrls config)).foldl
            (processUrl net assetsDir) ⟨fs0, [], 0, 0, [], [], [], []⟩).fetched := by
        simp [downloadAssets, hne]
      rw [hfetched, hfold]
      simp only [List.nil_append]
      have hnd' := deduplicateByUrl_keys_nodup (collectRemoteUrls config)
      have hle := List.nodup_iff_count_le_one.mp hnd' u
      have hpos : 0 < ((deduplicateByUrl (collectRemoteUrls config)).map (·.1)).count u :=
        List.count_pos_iff.mpr hukey
      omega
    · intro p hp
      obtain ⟨g, hgmem, hgu⟩ := List.mem_map.mp hukey
      have hpaths : p ∈ g.2 := by
        rw [deduplicateByUrl_group (collectRemoteUrls config) g hgmem]
        have hmemf : (p, u) ∈ (collectRemoteUrls config).filter (·.2 = g.1) := by
          rw [List.mem_filter]
          exact ⟨hp, by simp [hgu]⟩
        exact List.mem_map_of_mem (fun e => e.1) hmemf
      constructor
      · have hsets : (downloadAssets net assetsDir config fs0).sets =
            ((deduplicateByUrl (collectRemoteUrls config)).foldl
              (processUrl net assetsDir) ⟨fs0, [], 0, 0, [], [], [], []⟩).sets := by
          simp [downloadAssets, hne]
        rw [hsets, hfold]
        simp only [List.nil_append]
        rw [List.mem_flatMap]
        refine ⟨g, hgmem, ?_⟩
        rw [hgu]
        exact List.mem_map_of_mem _ hpaths
      · have hconf : (downloadAssets net assetsDir config fs0).config =
            rewriteConfig (fun u' =>
              (((deduplicateByUrl (collectRemoteUrls config)).foldl
                (processUrl net assetsDir) ⟨fs0, [], 0, 0, [], [], [], []⟩).res.find?
                  (·.1 = u')).map (·.2)) config := by
          simp [downloadAssets, hne]
        rw [hconf]
        rw [rewrite_getAt_config _ config hwf p u hp]
        have hresmap : ((deduplicateByUrl (collectRemoteUrls config)).foldl
            (processUrl net assetsDir) ⟨fs0, [], 0, 0, [], [], [], []⟩).res =
            ((deduplicateByUrl (collectRemoteUrls config)).map (·.1)).map
              (fun x => (x, joinPath assetsDir (localFilenameFromUrl x))) := by
          rw [hfold]
          simp only [List.nil_append, List.map_map]
          rfl
        rw [hresmap, find?_map_key _ _ u hukey]
        rfl





theorem chainUrl_shift (net : String → ReqOutcome) (u : String) (i : Nat) :
    chainUrl net (redirectStep net u) i = chainUrl net u (i + 1) :=
  (Function.iterate_succ_apply (redirectStep net) i u).symm

theorem doRequest_chain_success (net : String → ReqOutcome) :
    ∀ (k : Nat) (u : String) (rl : Nat), k ≤ rl →
    (∀ i, i < k → isRedirectResp (net (chainUrl net u i)) = true) →
    (∀ i, i ≤ k → validUrl (chainUrl net u i) = true) →
    isOkResp (net (chainUrl net u k)) = true →
    doRequest net rl u = (.success, true)
  | 0, u, rl, _, _, hval, hfin => by
    have hvu : validUrl u = true := hval 0 (Nat.le_refl 0)
    simp only [chainUrl, Function.iterate_zero, id] at hfin
    match hnet : net u with
    | .resp s l .ok =>
      rw [hnet] at hfin
      simp only [isOkResp, Bool.and_eq_true, decide_eq_true_eq] at hfin
      have h1 : ¬(300 ≤ s ∧ s < 400) := by omega
      have h2 : ¬(s < 200 ∨ 300 ≤ s) := by omega
      cases l with
      | some loc => simp [doRequest, hvu, hnet, h1, h2]
      | none => simp [doRequest, hvu, hnet, h2]
    | .resp s l .writeStreamError =>
      rw [hnet] at hfin
      simp [isOkResp] at hfin
    | .resp s l .timeoutMidBody =>
      rw [hnet] at hfin
      simp [isOkResp] at hfin
    | .reqError =>
      rw [hnet] at hfin
      simp [isOkResp] at hfin
    | .reqTimeout =>
      rw [hnet] at hfin
      simp [isOkResp] at hfin
  | k + 1, u, rl, hk, hred, hval, hfin => by
    have hvu : validUrl u = true := hval 0 (Nat.zero_le _)
    have hr0 := hred 0 (Nat.succ_pos k)
    simp only [chainUrl, Function.iterate_zero, id] at hr0
    obtain ⟨rl2, rfl⟩ : ∃ rl2, rl = rl2 + 1 := ⟨rl - 1, by omega⟩
    match hnet : net u with
    | .resp s (some loc) b =>
      rw [hnet] at hr0
      simp only [isRedirectResp, Bool.and_eq_true, decide_eq_true_eq] at hr0
      have hstep : redirectStep net u = resolveLocation loc u := by
        simp [redirectStep, hnet, hr0]
      have ih := doRequest_chain_success net k (redirectStep net u) rl2 (by omega)
        (fun i hi => by
          rw [chainUrl_shift]
          exact hred (i + 1) (by omega))
        (fun i hi => by
          rw [chainUrl_shift]
          exact hval (i + 1) (by omega))
        (by
          rw [chainUrl_shift]
          exact hfin)
      rw [hstep] at ih
      simp [doRequest, hvu, hnet, hr0, ih]
    | .resp s none b =>
      rw [hnet] at hr0
      simp [isRedirectResp] at hr0
    | .reqError =>
      rw [hnet] at hr0
      simp [isRedirectResp] at hr0
    | .reqTimeout =>
      rw [hnet] at hr0
      simp [isRedirectResp] at hr0

theorem doRequest_chain_toomany (net : String → ReqOutcome) :
    ∀ (rl : Nat) (u : String),
    (∀ i, i ≤ rl → isRedirectResp (net (chainUrl net u i)) = true) →
    (∀ i, i ≤ rl → validUrl (chainUrl net u i) = true) →
    doRequest net rl u = (.tooManyRedirects, false)
  | 0, u, hred, hval => by
    have hvu : validUrl u = true := hval 0 (Nat.le_refl 0)
    have hr0 := hred 0 (Nat.le_refl 0)
    simp only [chainUrl, Function.iterate_zero, id] at hr0
    match hnet : net u with
    | .resp s (some loc) b =>
      rw [hnet] at hr0
      simp only [isRedirectResp, Bool.and_eq_true, decide_eq_true_eq] at hr0
      simp [doRequest, hvu, hnet, hr0]
    | .resp s none b =>
      rw [hnet] at hr0
      simp [isRedirectResp] at hr0
    | .reqError =>
      rw [hnet] at hr0
      simp [isRedirectResp] at hr0
    | .reqTimeout =>
      rw [hnet] at hr0
      simp [isRedirectResp] at hr0
  | rl + 1, u, hred, hval => by
    have hvu : validUrl u = true := hval 0 (Nat.zero_le _)
    have hr0 := hred 0 (Nat.zero_le _)
    simp only [chainUrl, Function.iterate_zero, id] at hr0
    match hnet : net u with
    | .resp s (some loc) b =>
      rw [hnet] at hr0
      simp only [isRedirectResp, Bool.and_eq_true, decide_eq_true_eq] at hr0
      have hstep : redirectStep net u = resolveLocation loc u := by
        simp [redirectStep, hnet, hr0]
      have ih := doRequest_chain_toomany net rl (redirectStep net u)
        (fun i hi => by
          rw [chainUrl_shift]
          exact hred (i + 1) (by omega))
        (fun i hi => by
          rw [chainUrl_shift]
          exact hval (i + 1) (by omega))
      rw [hstep] at ih
      simp [doRequest, hvu, hnet, hr0, ih]
    | .resp s none b =>
      rw [hnet] at hr0
      simp [isRedirectResp] at hr0
    | .reqError =>
      rw [hnet] at hr0
      simp [isRedirectResp] at hr0
    | .reqTimeout =>
      rw [hnet] at hr0
      simp [isRedirectResp] at hr0



/-- C4: `downloadFile` follows 3xx redirects by resolving the `Location`
    header against the current URL; a chain of at most `MAX_REDIRECTS` (5)
    redirect hops ending in a completed `2xx` body succeeds with the file
    written, while six consecutive redirect responses end in the
    too-many-redirects error with no file written. -/
theorem downloadFile_redirect_policy :
    (∀ (net : String → ReqOutcome) (u : String) (k : Nat), k ≤ MAX_REDIRECTS →
      (∀ i, i < k → isRedirectResp (net (chainUrl net u i)) = true) →
      (∀ i, i ≤ k → validUrl (chainUrl net u i) = true) →
      isOkResp (net (chainUrl net u k)) = true →
      downloadFile net u = (.success, true))
    ∧ (∀ (net : String → ReqOutcome) (u : String),
      (∀ i, i ≤ MAX_REDIRECTS → isRedirectResp (net (chainUrl net u i)) = true) →
      (∀ i, i ≤ MAX_REDIRECTS → validUrl (chainUrl net u i) = true) →
      downloadFile net u = (.tooManyRedirects, false)) :=
  ⟨fun net u k hk h1 h2 h3 => doRequest_chain_success net k u MAX_REDIRECTS hk h1 h2 h3,
   fun net u h1 h2 => doRequest_chain_toomany net MAX_REDIRECTS u h1 h2⟩

/-- C5 (amended): when the body transfer is aborted by the write stream's
    `error` event, the partial file is unlinked before the error is
    propagated, so the destination file is not on disk afterwards.  (The
    timeout path keeps the partial file, see the counterexample.) -/
theorem streamError_deletes_partial (net : String → ReqOutcome) :
    ∀ (rl : Nat) (url : String),
    (doRequest net rl url).1 = .streamError → (doRequest net rl url).2 = false
  | rl, url => by
    intro h
    by_cases hv : validUrl url = false
    · simp [doRequest, hv] at h
    · rw [Bool.not_eq_false] at hv
      match hnet : net url with
      | .reqError => simp [doRequest, hv, hnet] at h
      | .reqTimeout => simp [doRequest, hv, hnet] at h
      | .resp s (some loc) b =>
        by_cases hr : 300 ≤ s ∧ s < 400
        · match rl, h with
          | 0, h => simp [doRequest, hv, hnet, hr] at h
          | rl2 + 1, h =>
            have hEq : doRequest net (rl2 + 1) url =
                doRequest net rl2 (resolveLocation loc url) := by
              rw [doRequest]
              simp [hv, hnet, hr]
            rw [hEq] at h ⊢
            exact streamError_deletes_partial net rl2 (resolveLocation loc url) h
        · by_cases he : s < 200 ∨ 300 ≤ s
          · simp [doRequest, hv, hnet, hr, he] at h
          · cases b with
            | ok => simp [doRequest, hv, hnet, hr, he] at h
            | writeStreamError => simp [doRequest, hv, hnet, hr, he]
            | timeoutMidBody => simp [doRequest, hv, hnet, hr, he] at h
      | .resp s none b =>
        by_cases he : s < 200 ∨ 300 ≤ s
        · simp [doRequest, hv, hnet, he] at h
        · cases b with
          | ok => simp [doRequest, hv, hnet, he] at h
          | writeStreamError => simp [doRequest, hv, hnet, he]
          | timeoutMidBody => simp [doRequest, hv, hnet, he] at h





theorem not_remote_assets : ∀ f, isRemoteUrl (joinPath "assets" f) = false := by
  intro f
  have h1 : joinPath "assets" f = "assets" ++ "/" ++ f := by
    simp [joinPath]
  have h2 : ("assets" ++ "/" ++ f).data =
      'a' :: 's' :: 's' :: 'e' :: 't' :: 's' :: '/' :: f.data := by
    rw [String.data_append, String.data_append]
    rfl
  rw [h1]
  simp only [isRemoteUrl, jsStartsWith, h2, Bool.or_eq_false_iff]
  exact ⟨rfl, rfl⟩

/-- C1 counterexample: with `pic.jpg` already present in the destination
    directory, a run over a configuration holding three references to
    `urlPic` performs zero network fetches for it, not one. -/
theorem dedup_claim_counterexample :
    (collectUrls cfgThreeRefs).count urlPic = 3
    ∧ (downloadAssets netAllOk "assets" cfgThreeRefs ["pic.jpg"]).fetched.count urlPic = 0
    ∧ (downloadAssets netAllOk "assets" cfgThreeRefs ["pic.jpg"]).skipped = 1 := by
  decide

/-- C1 witness. -/
theorem downloadAssets_dedup_witness :
    ((downloadAssets netAllOk "assets" cfgThreeRefs []).fetched.count urlPic ≤ 1)
    ∧ (downloadAssets netAllOk "assets" cfgThreeRefs []).fetched.count urlPic = 1
    ∧ ([Sum.inr "b"], joinPath "assets" (localFilenameFromUrl urlPic))
        ∈ (downloadAssets netAllOk "assets" cfgThreeRefs []).sets
    ∧ getAt (downloadAssets netAllOk "assets" cfgThreeRefs []).config [Sum.inr "b"]
        = some (.str (joinPath "assets" (localFilenameFromUrl urlPic))) := by
  have hgen := downloadAssets_dedup.1 netAllOk "assets" cfgThreeRefs [] urlPic
  have hmain := downloadAssets_dedup.2 netAllOk "assets" cfgThreeRefs [] urlPic
    (by decide) (by decide) (by decide) (by decide) (by decide)
  have hslot := hmain.2 [Sum.inr "b"] (by decide)
  exact ⟨hgen, hmain.1, hslot.1, hslot.2⟩

/-- C2 witness. -/
theorem downloadAssets_idempotent_witness :
    downloadAssets netAllOk "assets"
        (downloadAssets netAllOk "assets" cfgOneRef []).config
        (downloadAssets netAllOk "assets" cfgOneRef []).fs =
      ⟨(downloadAssets netAllOk "assets" cfgOneRef []).config,
       (downloadAssets netAllOk "assets" cfgOneRef []).fs,
       0, 0, [], [], [], [], false⟩ :=
  downloadAssets_idempotent netAllOk "assets" cfgOneRef []
    not_remote_assets (by decide)

/-- C3: the within-run cache check fires on the file just written for the
    first URL, so the second URL is skipped as "cached": both references are
    rewritten to `assets/image.jpg`, only `image.jpg` is on disk, and
    `image_2.jpg` is never created -- contradicting the documented
    collision-suffix behaviour. -/
theorem collision_suffix_failing_input :
    (downloadAssets netAllOk "assets" cfgTwoBasenames []).fetched = [urlImgA]
    ∧ (downloadAssets netAllOk "assets" cfgTwoBasenames []).fs = ["image.jpg"]
    ∧ (downloadAssets netAllOk "assets" cfgTwoBasenames []).skipped = 1
    ∧ (downloadAssets netAllOk "assets" cfgTwoBasenames []).res =
        [(urlImgA, "assets/image.jpg"), (urlImgB, "assets/image.jpg")]
    ∧ "image_2.jpg" ∉ (downloadAssets netAllOk "assets" cfgTwoBasenames []).fs := by
  decide

/-- C4 witness: three redirects then success; an endless redirect loop hits
    the limit. -/
theorem downloadFile_redirect_policy_witness :
    downloadFile netRedirect3 "http://x.com/r0" = (.success, true)
    ∧ downloadFile netRedirectLoop "http://y.com/a" = (.tooManyRedirects, false) :=
  ⟨downloadFile_redirect_policy.1 netRedirect3 "http://x.com/r0" 3 (by decide)
     (by decide) (by decide) (by decide),
   downloadFile_redirect_policy.2 netRedirectLoop "http://y.com/a"
     (by decide) (by decide)⟩

/-- C5 counterexample: a body transfer aborted by the 30 s timeout
    propagates the error yet leaves the partially-written file on disk. -/
theorem timeout_keeps_partial_file :
    downloadFile netTimeoutMid "http://x.com/a.jpg" = (.timedOut, true) := by
  decide

/-- C5 witness. -/
theorem streamError_deletes_partial_witness :
    (downloadFile netWriteErr "http://x.com/a.jpg").1 = DlResult.streamError
    ∧ (downloadFile netWriteErr "http://x.com/a.jpg").2 = false :=
  ⟨by decide,
   streamError_deletes_partial netWriteErr MAX_REDIRECTS "http://x.com/a.jpg"
     (by decide)⟩

/-- C10 witness: one reference whose download fails -- the config is still
    written back, with the reference keeping its remote value. -/
theorem downloadAssets_write_iff_witness :
    (downloadAssets netReject "assets" cfgOneRef []).wroteConfig
        = !(collectRemoteUrls cfgOneRef).isEmpty
    ∧ downloadAssets netReject "assets" Json.null [] =
        ⟨Json.null, [], 0, 0, [], [], [], [], false⟩
    ∧ getAt (downloadAssets netReject "assets" cfgOneRef []).config [Sum.inr "logo"]
        = some (.str urlPic) :=
  ⟨(downloadAssets_write_iff netReject "assets" cfgOneRef []).1,
   (downloadAssets_write_iff netReject "assets" Json.null []).2.1 (by decide),
   (downloadAssets_write_iff netReject "assets" cfgOneRef []).2.2 (by decide)
     [Sum.inr "logo"] urlPic (by decide) (by decide)⟩


/-! ## Claim theorems for LocalizedText resolution -/


theorem trim_nonempty_ne (s : String) (h : (trimChars s.data).isEmpty = false) :
    s ≠ "" := by
  intro heq
  subst heq
  exact absurd h (by decide)

/-- C9: on every valid LocalizedText, `t` returns a non-empty string chosen
    by the specified fallback chain (current language, then default
    language, then first available language, then the map's first key). -/
theorem t_follows_fallback_chain (ctx : LocaleContext) (lt : LocalizedText)
    (hv : validLocalizedText lt = true) :
    tResolve ctx lt = tSpecChain ctx lt ∧ tResolve ctx lt ≠ "" := by
  match lt with
  | .str s =>
    refine ⟨rfl, ?_⟩
    simp only [validLocalizedText, Bool.not_eq_true'] at hv
    exact trim_nonempty_ne s hv
  | .map m =>
    simp only [validLocalizedText, Bool.and_eq_true, List.all_eq_true,
      Bool.not_eq_true', decide_eq_true_eq] at hv
    obtain ⟨hm, hall⟩ := hv
    have hval : ∀ kv ∈ m, kv.2 ≠ "" := fun kv hkv =>
      trim_nonempty_ne kv.2 (hall kv hkv).2
    have hkeys : ∀ kv ∈ m, kv.1 ≠ "" := fun kv hkv => (hall kv hkv).1
    have htruthy : ∀ k, truthyLookup m k = (m.find? (·.1 = k)).map (·.2) := by
      intro k
      simp only [truthyLookup]
      cases hf : m.find? (·.1 = k) with
      | none => rfl
      | some kv =>
        simp [hval kv (List.mem_of_find?_eq_some hf)]
    have hneK : m.find? (·.1 = "") = none :=
      List.find?_eq_none.mpr fun kv hkv => by simp [hkeys kv hkv]
    have hfb : ∃ kv0, m.head? = some kv0 ∧ kv0.2 ≠ "" := by
      cases m with
      | nil => exact absurd hm (by simp)
      | cons kv0 tl =>
        exact ⟨kv0, rfl, hval kv0 (List.mem_cons_self kv0 tl)⟩
    obtain ⟨kv0, hh0, hne0⟩ := hfb
    cases hc : m.find? (·.1 = ctx.current) with
    | some kv =>
      have h1 : tResolve ctx (.map m) = kv.2 := by
        simp [tResolve, htruthy, hc]
      have h2 : tSpecChain ctx (.map m) = kv.2 := by
        simp [tSpecChain, hc]
      rw [h1, h2]
      exact ⟨rfl, hval kv (List.mem_of_find?_eq_some hc)⟩
    | none =>
      cases hd : m.find? (·.1 = ctx.default) with
      | some kv =>
        have h1 : tResolve ctx (.map m) = kv.2 := by
          simp [tResolve, htruthy, hc, hd]
        have h2 : tSpecChain ctx (.map m) = kv.2 := by
          simp [tSpecChain, hc, hd]
        rw [h1, h2]
        exact ⟨rfl, hval kv (List.mem_of_find?_eq_some hd)⟩
      | none =>
        cases hh : ctx.available.head? with
        | none =>
          have h1 : tResolve ctx (.map m) = kv0.2 := by
            simp [tResolve, htruthy, hc, hd, hh, hh0]
          have h2 : tSpecChain ctx (.map m) = kv0.2 := by
            simp [tSpecChain, hc, hd, hh, hh0]
          rw [h1, h2]
          exact ⟨rfl, hne0⟩
        | some firstLang =>
          by_cases hfl : firstLang = ""
          · subst hfl
            have h1 : tResolve ctx (.map m) = kv0.2 := by
              simp [tResolve, htruthy, hc, hd, hh, hh0]
            have h2 : tSpecChain ctx (.map m) = kv0.2 := by
              simp [tSpecChain, hc, hd, hh, hneK, hh0]
            rw [h1, h2]
            exact ⟨rfl, hne0⟩
          · cases he : m.find? (·.1 = firstLang) with
            | some kv =>
              have h1 : tResolve ctx (.map m) = kv.2 := by
                simp [tResolve, htruthy, hc, hd, hh, hfl, he]
              have h2 : tSpecChain ctx (.map m) = kv.2 := by
                simp [tSpecChain, hc, hd, hh, he]
              rw [h1, h2]
              exact ⟨rfl, hval kv (List.mem_of_find?_eq_some he)⟩
            | none =>
              have h1 : tResolve ctx (.map m) = kv0.2 := by
                simp [tResolve, htruthy, hc, hd, hh, hfl, he, hh0]
              have h2 : tSpecChain ctx (.map m) = kv0.2 := by
                simp [tSpecChain, hc, hd, hh, he, hh0]
              rw [h1, h2]
              exact ⟨rfl, hne0⟩

/-- C9 witness. -/
theorem t_follows_fallback_chain_witness :
    tResolve ⟨"fr", "en", ["en", "fr"]⟩
        (.map [("en", "Welcome"), ("fr", "Bienvenue")]) =
      tSpecChain ⟨"fr", "en", ["en", "fr"]⟩
        (.map [("en", "Welcome"), ("fr", "Bienvenue")])
    ∧ tResolve ⟨"fr", "en", ["en", "fr"]⟩
        (.map [("en", "Welcome"), ("fr", "Bienvenue")]) ≠ ""
    ∧ tResolve ⟨"fr", "en", ["en", "fr"]⟩
        (.map [("en", "Welcome"), ("fr", "Bienvenue")]) = "Bienvenue" :=
  ⟨(t_follows_fallback_chain ⟨"fr", "en", ["en", "fr"]⟩
      (.map [("en", "Welcome"), ("fr", "Bienvenue")]) (by decide)).1,
   (t_follows_fallback_chain ⟨"fr", "en", ["en", "fr"]⟩
      (.map [("en", "Welcome"), ("fr", "Bienvenue")]) (by decide)).2,
   by decide⟩


/-! ## The validator claims: unknown section types, duplicate ids, hero stats bounds -/

theorem String.ext' {s t : String} (h : s.data = t.data) : s = t := by
  cases s
  cases t
  exact congrArg String.mk h

theorem dupMsg_inj (a b : String)
    (h : "Duplicate section id \"" ++ a ++ "\"" = "Duplicate section id \"" ++ b ++ "\"") :
    a = b := by
  have hd := congrArg String.data h
  rw [String.data_append, String.data_append, String.data_append,
    String.data_append] at hd
  exact String.ext' (List.append_cancel_left (List.append_cancel_right hd))

theorem dupMsg_head (x : String) :
    ("Duplicate section id \"" ++ x ++ "\"").data.head? = some 'D' := by
  rw [String.data_append, String.data_append]
  rfl

theorem german_ne_dupMsg (x : String) :
    germanReason ≠ "Duplicate section id \"" ++ x ++ "\"" := by
  intro h
  have h2 := congrArg List.head? (congrArg String.data h)
  rw [dupMsg_head] at h2
  exact absurd h2 (by decide)

theorem french_ne_dupMsg (x : String) :
    frenchReason ≠ "Duplicate section id \"" ++ x ++ "\"" := by
  intro h
  have h2 := congrArg List.head? (congrArg String.data h)
  rw [dupMsg_head] at h2
  exact absurd h2 (by decide)

theorem seo_ne_dupMsg (x : String) :
    "No \"seo\" field found — SEO metadata will not be generated" ≠
      "Duplicate section id \"" ++ x ++ "\"" := by
  intro h
  have h2 := congrArg List.head? (congrArg String.data h)
  rw [dupMsg_head] at h2
  exact absurd h2 (by decide)

theorem checkLanguageCharacters_reason (text langCode : String) (r : String)
    (h : checkLanguageCharacters text langCode = some r) :
    r = germanReason ∨ r = frenchReason := by
  unfold checkLanguageCharacters at h
  split_ifs at h <;>
    first
      | exact Or.inl (Option.some.inj h).symm
      | exact Or.inr (Option.some.inj h).symm
      | simp at h

theorem langCheckEntries_messages (currentPath : String) :
    ∀ (entries : List (String × Json)) (st : WalkState),
    (∀ w ∈ st.warnings, w.message = germanReason ∨ w.message = frenchReason) →
    ∀ w ∈ (langCheckEntries currentPath st entries).warnings,
      w.message = germanReason ∨ w.message = frenchReason
  | [], st, hst => hst
  | (lang, v) :: rest, st, hst => by
    match v with
    | .str text =>
      simp only [langCheckEntries]
      split_ifs with h1 h2
      · exact langCheckEntries_messages currentPath rest st hst
      · match hchk : checkLanguageCharacters text lang with
        | some r =>
          refine langCheckEntries_messages currentPath rest _ ?_
          intro w hw
          simp only [List.mem_append, List.mem_singleton] at hw
          rcases hw with hw | hw
          · exact hst w hw
          · rw [hw]
            exact checkLanguageCharacters_reason text lang r hchk
        | none => exact langCheckEntries_messages currentPath rest _ (fun w hw => hst w hw)
      · exact langCheckEntries_messages currentPath rest st hst
    | .null => exact langCheckEntries_messages currentPath rest st hst
    | .bool b => exact langCheckEntries_messages currentPath rest st hst
    | .num n => exact langCheckEntries_messages currentPath rest st hst
    | .arr xs => exact langCheckEntries_messages currentPath rest st hst
    | .obj fs => exact langCheckEntries_messages currentPath rest st hst

mutual
theorem walkObj_messages (defLang : String) (L : List String) :
    ∀ (fs : JsonObj) (st : WalkState) (path : String),
    (∀ w ∈ st.warnings, w.message = germanReason ∨ w.message = frenchReason) →
    ∀ w ∈ (walkObj defLang L st path fs).warnings,
      w.message = germanReason ∨ w.message = frenchReason
  | .nil, st, path, hst => hst
  | .cons k v tl, st, path, hst => by
    simp only [walkObj]
    exact walkObj_messages defLang L tl _ path
      (walkEntry_messages defLang L v st path k hst)
termination_by fs st path hst => sizeOf fs
theorem walkArr_messages (defLang : String) (L : List String) :
    ∀ (xs : JsonList) (st : WalkState) (path : String) (i : Nat),
    (∀ w ∈ st.warnings, w.message = germanReason ∨ w.message = frenchReason) →
    ∀ w ∈ (walkArr defLang L st path i xs).warnings,
      w.message = germanReason ∨ w.message = frenchReason
  | .nil, st, path, i, hst => hst
  | .cons v tl, st, path, i, hst => by
    simp only [walkArr]
    exact walkArr_messages defLang L tl _ path (i + 1)
      (walkEntry_messages defLang L v st path (Nat.repr i) hst)
termination_by xs st path i hst => sizeOf xs
theorem walkEntry_messages (defLang : String) (L : List String) :
    ∀ (v : Json) (st : WalkState) (path : String) (k : String),
    (∀ w ∈ st.warnings, w.message = germanReason ∨ w.message = frenchReason) →
    ∀ w ∈ (walkEntry defLang L st path k v).warnings,
      w.message = germanReason ∨ w.message = frenchReason
  | .str s, st, path, k, hst => by
    simp only [walkEntry]
    cases hchk : checkLanguageCharacters s defLang with
    | none =>
      simp only [hchk]
      split_ifs <;> exact hst
    | some r =>
      simp only [hchk]
      split_ifs <;>
        first
          | exact hst
          | (intro w hw
             rcases List.mem_append.1 hw with hw | hw
             · exact hst w hw
             · rw [List.mem_singleton.1 hw]
               exact checkLanguageCharacters_reason s defLang r hchk)
  | .null, st, path, k, hst => hst
  | .bool b, st, path, k, hst => hst
  | .num n, st, path, k, hst => hst
  | .obj fsv, st, path, k, hst => by
    simp only [walkEntry]
    split_ifs <;>
      first
        | exact langCheckEntries_messages _ (JsonObj.entries fsv) st hst
        | exact walkObj_messages defLang L fsv st _ hst
  | .arr xsv, st, path, k, hst => by
    simp only [walkEntry]
    split_ifs <;>
      first
        | exact walkItems_messages defLang L xsv _ _ 0
            (langCheckEntries_messages _ _ st hst)
        | exact walkItems_messages defLang L xsv st _ 0 hst
termination_by v st path k hst => sizeOf v
theorem walkItems_messages (defLang : String) (L : List String) :
    ∀ (xs : JsonList) (st : WalkState) (currentPath : String) (i : Nat),
    (∀ w ∈ st.warnings, w.message = germanReason ∨ w.message = frenchReason) →
    ∀ w ∈ (walkItems defLang L st currentPath i xs).warnings,
      w.message = germanReason ∨ w.message = frenchReason
  | .nil, st, currentPath, i, hst => hst
  | .cons (.obj fsv) tl, st, currentPath, i, hst => by
    simp only [walkItems]
    exact walkItems_messages defLang L tl _ currentPath (i + 1)
      (walkObj_messages defLang L fsv st _ hst)
  | .cons (.arr xsv) tl, st, currentPath, i, hst => by
    simp only [walkItems]
    exact walkItems_messages defLang L tl _ currentPath (i + 1)
      (walkArr_messages defLang L xsv st _ 0 hst)
  | .cons .null tl, st, currentPath, i, hst => by
    simp only [walkItems]
    exact walkItems_messages defLang L tl st currentPath (i + 1) hst
  | .cons (.bool b) tl, st, currentPath, i, hst => by
    simp only [walkItems]
    exact walkItems_messages defLang L tl st currentPath (i + 1) hst
  | .cons (.num n) tl, st, currentPath, i, hst => by
    simp only [walkItems]
    exact walkItems_messages defLang L tl st currentPath (i + 1) hst
  | .cons (.str s) tl, st, currentPath, i, hst => by
    simp only [walkItems]
    exact walkItems_messages defLang L tl st currentPath (i + 1) hst
termination_by xs st currentPath i hst => sizeOf xs
end

theorem walkJson_messages (defLang : String) (L : List String)
    (j : Json) (st : WalkState) (path : String)
    (hst : ∀ w ∈ st.warnings, w.message = germanReason ∨ w.message = frenchReason) :
    ∀ w ∈ (walkJson defLang L st path j).warnings,
      w.message = germanReason ∨ w.message = frenchReason := by
  match j with
  | .obj fs => exact walkObj_messages defLang L fs st path hst
  | .arr xs => exact walkArr_messages defLang L xs st path 0 hst
  | .null => exact hst
  | .bool b => exact hst
  | .num n => exact hst
  | .str s => exact hst

theorem langWarnings_messages (config : Json) (sections : List SectionBlock) :
    ∀ w ∈ langWarnings config sections,
      w.message = germanReason ∨ w.message = frenchReason := by
  simp only [langWarnings]
  apply walkJson_messages
  apply walkJson_messages
  apply walkJson_messages
  apply walkJson_messages
  have : ∀ (l : List (Nat × SectionBlock)) (st : WalkState),
      (∀ w ∈ st.warnings, w.message = germanReason ∨ w.message = frenchReason) →
      ∀ w ∈ (l.foldl (fun st e => walkJson (defaultLanguageOf config)
        (languagesToCheck config) st
        ("sections[" ++ Nat.repr e.1 ++ "].props") e.2.props) st).warnings,
        w.message = germanReason ∨ w.message = frenchReason := by
    intro l
    induction l with
    | nil => exact fun st h => h
    | cons e l ih =>
      intro st h
      exact ih _ (walkJson_messages _ _ _ _ _ h)
  exact this _ _ (by simp)

theorem filter_dup_singleton_eq (p x : String) :
    (List.filter (fun w : Issue => w.message = "Duplicate section id \"" ++ x ++ "\"")
      [⟨p, "Duplicate section id \"" ++ x ++ "\""⟩]).length = 1 := by
  simp

theorem filter_dup_singleton_ne (p a x : String) (h : a ≠ x) :
    (List.filter (fun w : Issue => w.message = "Duplicate section id \"" ++ x ++ "\"")
      [⟨p, "Duplicate section id \"" ++ a ++ "\""⟩]).length = 0 := by
  have hmsg : ("Duplicate section id \"" ++ a ++ "\"" =
      "Duplicate section id \"" ++ x ++ "\"") = False :=
    eq_false fun hm => h (dupMsg_inj a x hm)
  simp [List.filter, hmsg]

theorem dupIdWarnings_count (x : String) :
    ∀ (ids seen : List String) (i : Nat),
    (List.filter (fun w => w.message = "Duplicate section id \"" ++ x ++ "\"")
      (dupIdWarnings seen i ids)).length =
    if x ∈ seen then ids.count x else ids.count x - 1
  | [], seen, i => by
    simp only [dupIdWarnings, List.filter_nil, List.length_nil, List.count_nil]
    split_ifs <;> rfl
  | id :: rest, seen, i => by
    have ih := dupIdWarnings_count x rest (id :: seen) (i + 1)
    rw [dupIdWarnings, List.filter_append, List.length_append]
    by_cases hx : id = x
    · subst hx
      rw [if_pos (List.mem_cons_self _ _)] at ih
      rw [ih]
      by_cases hmem : id ∈ seen
      · rw [if_pos hmem, if_pos hmem, filter_dup_singleton_eq]
        simp [List.count_cons]
        omega
      · rw [if_neg hmem, if_neg hmem, List.filter_nil]
        simp [List.count_cons]
    · by_cases hmem : x ∈ seen
      · rw [if_pos (List.mem_cons_of_mem _ hmem)] at ih
        rw [ih, if_pos hmem]
        have hcnt : (id :: rest).count x = rest.count x := by
          simp [List.count_cons, Ne.symm hx]
        rw [hcnt]
        by_cases hid : id ∈ seen
        · rw [if_pos hid, filter_dup_singleton_ne _ id x hx]
          omega
        · rw [if_neg hid, List.filter_nil]
          simp
      · have hm2 : x ∉ id :: seen := by
          intro h
          rcases List.mem_cons.1 h with h | h
          · exact hx h.symm
          · exact hmem h
        rw [if_neg hm2] at ih
        rw [ih, if_neg hmem]
        have hcnt : (id :: rest).count x = rest.count x := by
          simp [List.count_cons, Ne.symm hx]
        rw [hcnt]
        by_cases hid : id ∈ seen
        · rw [if_pos hid, filter_dup_singleton_ne _ id x hx]
          omega
        · rw [if_neg hid, List.filter_nil]
          simp

/-- C7: For every otherwise-valid configuration (the top-level schema
    passes and every section's props validate), `validateSiteConfig` returns
    `valid = true` — duplicate section ids are never errors — and, for every
    id value `x`, emits exactly `count x - 1` duplicate-id warnings: one per
    occurrence after the first. -/
theorem duplicate_ids_warn (config : Json)
    (htl : SiteConfigSchema config = [])
    (herr : (getSections config).enum.flatMap
      (fun e => validateSectionProps e.2.type e.2.props e.1) = []) :
    (validateSiteConfig config).valid = true ∧
    ∀ x, (List.filter (fun w => w.message = "Duplicate section id \"" ++ x ++ "\"")
        (validateSiteConfig config).warnings).length =
      ((getSections config).map (·.id)).count x - 1 := by
  have hvr : validateSiteConfig config =
      ⟨true, [], seoWarnings config
        ++ dupIdWarnings [] 0 ((getSections config).map (·.id))
        ++ langWarnings config (getSections config)⟩ := by
    simp only [validateSiteConfig, htl, herr, List.isEmpty_nil, if_true]
  rw [hvr]
  refine ⟨rfl, fun x => ?_⟩
  show (List.filter (fun w => w.message = "Duplicate section id \"" ++ x ++ "\"")
      (seoWarnings config
        ++ dupIdWarnings [] 0 ((getSections config).map (·.id))
        ++ langWarnings config (getSections config))).length = _
  rw [List.filter_append, List.filter_append, List.length_append, List.length_append]
  have hseo : (List.filter (fun w => w.message = "Duplicate section id \"" ++ x ++ "\"")
      (seoWarnings config)).length = 0 := by
    simp only [seoWarnings]
    cases getField config "seo" with
    | some v => simp
    | none => simp [seo_ne_dupMsg x]
  have hlang : (List.filter (fun w => w.message = "Duplicate section id \"" ++ x ++ "\"")
      (langWarnings config (getSections config))).length = 0 := by
    rw [List.length_eq_zero, List.filter_eq_nil_iff]
    intro w hw
    simp only [decide_eq_true_eq]
    rcases langWarnings_messages config (getSections config) w hw with h | h
    · rw [h]; exact german_ne_dupMsg x
    · rw [h]; exact french_ne_dupMsg x
  have hdup := dupIdWarnings_count x ((getSections config).map (·.id)) [] 0
  rw [if_neg (List.not_mem_nil x)] at hdup
  rw [hseo, hlang, hdup]
  omega

/-- C7 witness: on `cfgDupIds` the hypotheses hold by evaluation, validation
    stays `valid` and id `"a"` (2 occurrences) yields exactly 1 warning. -/
theorem duplicate_ids_warn_witness :
    SiteConfigSchema cfgDupIds = [] ∧
    (validateSiteConfig cfgDupIds).valid = true ∧
    (List.filter (fun w => w.message = "Duplicate section id \"" ++ "a" ++ "\"")
        (validateSiteConfig cfgDupIds).warnings).length =
      ((getSections cfgDupIds).map (·.id)).count "a" - 1 :=
  ⟨by decide, (duplicate_ids_warn cfgDupIds (by decide) (by decide)).1,
   (duplicate_ids_warn cfgDupIds (by decide) (by decide)).2 "a"⟩

theorem sectionPropsSchemas_none (t : String) (h : t ∉ VALID_SECTION_TYPES) :
    sectionPropsSchemas t = none := by
  simp only [VALID_SECTION_TYPES, List.mem_cons, List.not_mem_nil, or_false,
    not_or] at h
  obtain ⟨h1, h2, h3, h4, h5, h6, h7, h8, h9, h10, h11⟩ := h
  simp [sectionPropsSchemas, h1, h2, h3, h4, h5, h6, h7, h8, h9, h10, h11]

/-- C6: For a configuration whose sections list has an entry with an
    unrecognized type tag, the tag is rejected by the `z.enum` in the
    top-level schema: the enum issue at `sections.i.type` is a hard error,
    validation takes the early-return branch (so the other sections' props
    are NOT independently validated), while `validateSectionProps` itself
    would emit the `Unknown section type` message for such a tag. -/
theorem unknown_section_type (config : Json) (sections : JsonList)
    (i : Nat) (sj : Json) (t : String) (props : Json)
    (hobj : ∃ fs, config = .obj fs)
    (hsec : getField config "sections" = some (.arr sections))
    (hget : sections.toList.get? i = some sj)
    (htype : getField sj "type" = some (.str t))
    (hbad : t ∉ VALID_SECTION_TYPES) :
    (⟨[.key "sections", .idx i, .key "type"],
      "Invalid enum value. Expected " ++ quoteJoin VALID_SECTION_TYPES
        ++ ", received '" ++ t ++ "'"⟩ : ZIssue) ∈ SiteConfigSchema config ∧
    validateSiteConfig config =
      ⟨false, (SiteConfigSchema config).map fun iss =>
        ⟨renderTopPath iss.path, iss.message⟩, []⟩ ∧
    validateSectionProps t props i =
      [⟨"sections[" ++ Nat.repr i ++ "].type",
        "Unknown section type: \"" ++ t ++ "\""⟩] := by
  obtain ⟨fs, rfl⟩ := hobj
  simp only [getField] at hsec
  match sj, htype with
  | .obj fsj, htype =>
  simp only [getField] at htype
  have hsect : (⟨[.key "type"],
      "Invalid enum value. Expected " ++ quoteJoin VALID_SECTION_TYPES
        ++ ", received '" ++ t ++ "'"⟩ : ZIssue)
      ∈ SectionConfigSchema (.obj fsj) := by
    simp only [SectionConfigSchema, zObj, reqField, htype, zEnum, hbad,
      if_false, List.map_cons, List.map_nil, prefixKey]
    exact List.mem_append.2 (Or.inl (List.mem_append.2 (Or.inl
      (List.mem_singleton.2 rfl))))
  have harr : (⟨[.idx i, .key "type"],
      "Invalid enum value. Expected " ++ quoteJoin VALID_SECTION_TYPES
        ++ ", received '" ++ t ++ "'"⟩ : ZIssue)
      ∈ zArr (some (1, "At least one section is required")) none
          SectionConfigSchema (.arr sections) := by
    simp only [zArr]
    refine List.mem_append.2 (Or.inr ?_)
    refine List.mem_flatMap.2 ⟨(i, .obj fsj), ?_, ?_⟩
    · exact List.mem_enum_iff_get?.2 hget
    · exact List.mem_map.2 ⟨_, hsect, rfl⟩
  have hbody : (⟨[.key "sections", .idx i, .key "type"],
      "Invalid enum value. Expected " ++ quoteJoin VALID_SECTION_TYPES
        ++ ", received '" ++ t ++ "'"⟩ : ZIssue) ∈
      reqField fs "name" nonEmptyStringS ++
      optField fs "url" urlStringS ++
      optField fs "languages" (zArr none none nonEmptyStringS) ++
      reqField fs "defaultLanguage" nonEmptyStringS ++
      reqField fs "theme" ThemeConfigSchema ++
      optField fs "seo" SeoConfigSchema ++
      reqField fs "navigation" NavigationConfigSchema ++
      reqField fs "sections"
        (zArr (some (1, "At least one section is required")) none
          SectionConfigSchema) ++
      reqField fs "footer" FooterConfigSchema ++
      optField fs "disclaimer" DisclaimerConfigSchema ++
      optField fs "pipeline" PipelineConfigSchema := by
    refine List.mem_append.2 (Or.inl ?_)
    refine List.mem_append.2 (Or.inl ?_)
    refine List.mem_append.2 (Or.inl ?_)
    refine List.mem_append.2 (Or.inr ?_)
    simp only [reqField, hsec]
    exact List.mem_map.2 ⟨_, harr, rfl⟩
  have hmem : (⟨[.key "sections", .idx i, .key "type"],
      "Invalid enum value. Expected " ++ quoteJoin VALID_SECTION_TYPES
        ++ ", received '" ++ t ++ "'"⟩ : ZIssue) ∈ SiteConfigSchema (.obj fs) := by
    simp only [SiteConfigSchema, zRefine, zObj]
    rw [if_neg (by
      simp only [List.isEmpty_iff_eq_nil]
      exact List.ne_nil_of_mem hbody)]
    exact hbody
  refine ⟨hmem, ?_, ?_⟩
  · simp only [validateSiteConfig]
    rw [if_neg (by
      simp only [List.isEmpty_iff_eq_nil]
      exact List.ne_nil_of_mem hmem)]
  · simp [validateSectionProps, sectionPropsSchemas_none t hbad]

/-- C6 counterexample: on `cfgBadType` the only reported error is the zod
    enum issue for section 0 — its message is not `Unknown section type`,
    section 1's independent missing-`content` error (which a direct call to
    `validateSectionProps` does produce) is absent, and no warnings are
    emitted: validation of the other sections did not proceed. -/
theorem unknown_type_counterexample :
    (validateSiteConfig cfgBadType).valid = false ∧
    (validateSiteConfig cfgBadType).errors =
      [⟨"sections.0.type",
        "Invalid enum value. Expected 'hero' | 'services' | 'gallery' | 'about' | 'contact' | 'hours' | 'featured' | 'testimonials' | 'cta-banner' | 'text-block' | 'map', received 'banner'"⟩] ∧
    (∀ w ∈ (validateSiteConfig cfgBadType).errors,
      w.message ≠ "Unknown section type: \"banner\"") ∧
    validateSectionProps "text-block" (.obj (mkObj [])) 1 =
      [⟨"sections[1].props.content", "Required"⟩] ∧
    (validateSiteConfig cfgBadType).warnings = [] := by
  set_option maxRecDepth 4000 in decide

/-- C6 witness: the claim theorem applied to `cfgBadType`, section index 0,
    tag `"banner"`. -/
theorem unknown_section_type_witness :
    (⟨[.key "sections", .idx 0, .key "type"],
      "Invalid enum value. Expected " ++ quoteJoin VALID_SECTION_TYPES
        ++ ", received '" ++ "banner" ++ "'"⟩ : ZIssue) ∈ SiteConfigSchema cfgBadType ∧
    validateSiteConfig cfgBadType =
      ⟨false, (SiteConfigSchema cfgBadType).map fun iss =>
        ⟨renderTopPath iss.path, iss.message⟩, []⟩ ∧
    validateSectionProps "banner" (.obj (mkObj [("content", .str "hello")])) 0 =
      [⟨"sections[" ++ Nat.repr 0 ++ "].type",
        "Unknown section type: \"" ++ "banner" ++ "\""⟩] :=
  unknown_section_type cfgBadType badSections 0 (.obj secBanner) "banner"
    (.obj (mkObj [("content", .str "hello")]))
    ⟨_, rfl⟩ (by decide) (by decide) (by decide) (by decide)

/-- C8: The pipeline's hero schema carries no length bounds on `stats`:
    it accepts a hero section whose stats list has 1 entry and one with 5
    entries, in both the direct schema and through `validateSectionProps`,
    whereas the TypeScript schema (`src/schemas/sections.ts`) enforces the
    2..4 bounds the spec states, rejecting both inputs. -/
theorem hero_stats_bounds_failing :
    validateSectionProps "hero" heroPropsOneStat 0 = [] ∧
    validateSectionProps "hero" heroPropsFiveStats 0 = [] ∧
    HeroPropsSchema heroPropsOneStat = [] ∧
    HeroPropsSchema heroPropsFiveStats = [] ∧
    HeroPropsSchemaTS heroPropsOneStat =
      [⟨[.key "stats"], "Stats must have at least 2 items"⟩] ∧
    HeroPropsSchemaTS heroPropsFiveStats =
      [⟨[.key "stats"], "Stats cannot exceed 4 items"⟩] := by
  decide


end SiteForge
